import Mathlib

/-!
Verification of the Fofa-hack proxy pool and unified search engine.

The definitions below are a shallow embedding of the Python source:
* `ProxyManager` and its operations embed `src/fofa_hack/core/proxy.py`;
* the search engine (`Engine`, `stage1`, `stage2`, `stage3`, `search`,
  `search_all`) embeds `src/fofa_hack/core/unified_client.py`.

Python dictionaries become association lists, mutation becomes explicit
state passing, and a Python `IndexError` (list indexed out of range) is
modelled by the value `none` of an outer `Option`.  Network fetches are
parameters (oracles): each fetch outcome is supplied as data, and the
embedded code reacts to it exactly as the source does.
-/

set_option maxHeartbeats 1000000

namespace Fofa

/-- `self.failed.get(p, 0)`: lookup in the failure-count dict with default 0
(src/fofa_hack/core/proxy.py). -/
def fget (m : List (String × Nat)) (p : String) : Nat :=
  (m.lookup p).getD 0

/-- `self.failed[p] = n`: replace the binding for `p` if present, else append. -/
def fset (m : List (String × Nat)) (p : String) (n : Nat) : List (String × Nat) :=
  match m with
  | [] => [(p, n)]
  | (q, k) :: rest => if q = p then (q, n) :: rest else (q, k) :: fset rest p n

/-- `p in self.failed`: key membership in the failure-count dict. -/
def fmem (m : List (String × Nat)) (p : String) : Bool :=
  (m.lookup p).isSome

/-- State of `ProxyManager` (src/fofa_hack/core/proxy.py).  The `pool : Queue`
field of the source is write-only (never read) and is omitted.  `refreshing`
models the `_refreshing` attribute; a missing attribute reads as `false`. -/
structure ProxyManager where
  proxies : List String
  failed : List (String × Nat)
  idx : Nat
  is_ready : Bool
  allow_direct : Bool
  refreshing : Bool
  deriving Repr, DecidableEq

/-- `add_proxy`: append when the string is truthy and not already present. -/
def add_proxy (s : ProxyManager) (p : String) : ProxyManager :=
  if p ≠ "" ∧ p ∉ s.proxies then { s with proxies := s.proxies ++ [p] } else s

/-- The `for _ in range(len(self.proxies))` loop of `get_proxy`: read
`proxies[idx]`, advance the cursor modulo the length, return the proxy if its
failure count is below 3.  Result `none` models the `IndexError` raised when
the cursor is out of range; `some (r, i)` is the loop's outcome and the final
cursor. -/
def get_proxy_loop (failed : List (String × Nat)) (ps : List String) :
    Nat → Nat → Option (Option String × Nat)
  | 0, i => some (none, i)
  | n+1, i =>
    match ps.get? i with
    | none => none
    | some proxy =>
      let i2 := (i + 1) % ps.length
      if fget failed proxy < 3 then some (some proxy, i2)
      else get_proxy_loop failed ps n i2

/-- `ProxyManager.get_proxy`: empty pool returns `None`; if every known proxy
has failure count ≥ 3 the failure dict is cleared (`self.failed.clear()`);
then the round-robin loop runs. -/
def get_proxy (s : ProxyManager) : Option (Option String × ProxyManager) :=
  if s.proxies = [] then some (none, s)
  else
    let failed2 := if s.proxies.all (fun p => 3 ≤ fget s.failed p) then [] else s.failed
    match get_proxy_loop failed2 s.proxies s.proxies.length s.idx with
    | none => none
    | some (r, i2) => some (r, { s with failed := failed2, idx := i2 })

/-- The rotation loop of `get_next_proxy`: like `get_proxy_loop` but the
candidate must also differ from `cur` (`proxy != current_proxy`; comparing a
string with Python `None` is always unequal, hence the `Option` compare). -/
def get_next_loop (failed : List (String × Nat)) (cur : Option String) (ps : List String) :
    Nat → Nat → Option (Option String × Nat)
  | 0, i => some (none, i)
  | n+1, i =>
    match ps.get? i with
    | none => none
    | some proxy =>
      let i2 := (i + 1) % ps.length
      if some proxy ≠ cur ∧ fget failed proxy < 3 then some (some proxy, i2)
      else get_next_loop failed cur ps n i2

/-- `ProxyManager.get_next_proxy`: empty pool gives `None`; a single-proxy pool
returns that proxy iff usable (cursor untouched); otherwise the rotation loop
runs and, when it finds nothing, the code falls back to
`None if self.failed.get(self.proxies[0], 0) >= 3 else self.proxies[0]`. -/
def get_next_proxy (s : ProxyManager) (cur : Option String) :
    Option (Option String × ProxyManager) :=
  if s.proxies = [] then some (none, s)
  else if s.proxies.length = 1 then
    some (if fget s.failed (s.proxies.headD "") < 3
          then (some (s.proxies.headD ""), s) else (none, s))
  else
    match get_next_loop s.failed cur s.proxies s.proxies.length s.idx with
    | none => none
    | some (some p, i2) => some (some p, { s with idx := i2 })
    | some (none, i2) =>
      some (if 3 ≤ fget s.failed (s.proxies.headD "")
            then (none, { s with idx := i2 })
            else (some (s.proxies.headD ""), { s with idx := i2 }))

/-- `mark_failed`: increment the failure count of a truthy proxy string. -/
def mark_failed (s : ProxyManager) (p : String) : ProxyManager :=
  if p = "" then s
  else { s with failed := fset s.failed p (fget s.failed p + 1) }

/-- `mark_success`: decrement (floor 0) when the proxy is truthy and has an
entry in the failure dict. -/
def mark_success (s : ProxyManager) (p : String) : ProxyManager :=
  if p ≠ "" ∧ fmem s.failed p then { s with failed := fset s.failed p (fget s.failed p - 1) }
  else s

/-- `auto_refresh`: returns whether a background collection cycle is launched.
If `_refreshing` is already true the call is a no-op; otherwise the flag is set
and one background cycle starts. -/
def auto_refresh (s : ProxyManager) : Bool × ProxyManager :=
  if s.refreshing then (false, s)
  else (true, { s with refreshing := true })

/-- Pool-adoption step of `_refresh_background`, after validation.  `valid` is
the set validated in the first wave (the first 20 candidates), `more_valid` the
second wave.  `≥ 5` valid: adopt exactly that set; `1..4`: adopt the union with
the second wave; `0`: set the pool to `[]` only under `allow_direct`, and in
every branch set `is_ready`.  The cursor `idx` is not touched, exactly as in
the source. -/
def refresh_adopt (s : ProxyManager) (valid more_valid : List String) : ProxyManager :=
  if 5 ≤ valid.length then { s with proxies := valid, is_ready := true }
  else if 1 ≤ valid.length then { s with proxies := valid ++ more_valid, is_ready := true }
  else if s.allow_direct then { s with proxies := [], is_ready := true }
  else { s with is_ready := true }

/-- Cursor well-formedness: the rotation cursor is in range (`idx < len`), and
`idx = 0` when the pool is empty.  This is the state every execution reaches
when no pool swap-in has shrunk the list. -/
abbrev WFpm (s : ProxyManager) : Prop := s.idx < max s.proxies.length 1

theorem headD_mem {ps : List String} (h : ps ≠ []) (d : String) : ps.headD d ∈ ps := by
  cases ps with
  | nil => exact absurd rfl h
  | cons a t => simp

theorem get_proxy_loop_wf (failed : List (String × Nat)) (ps : List String) :
    ∀ fuel i, i < ps.length →
      ∃ r i2, get_proxy_loop failed ps fuel i = some (r, i2) ∧ i2 < ps.length ∧
        (∀ p, r = some p → p ∈ ps ∧ fget failed p < 3) := by
  intro fuel
  induction fuel with
  | zero => intro i hi; exact ⟨none, i, rfl, hi, by simp⟩
  | succ n ih =>
    intro i hi
    have hget : ps[i]? = some ps[i] := List.getElem?_eq_getElem hi
    have hlen : 0 < ps.length := Nat.lt_of_le_of_lt (Nat.zero_le _) hi
    have hmod : (i + 1) % ps.length < ps.length := Nat.mod_lt _ hlen
    by_cases hc : fget failed (ps[i]) < 3
    · refine ⟨some (ps[i]), (i + 1) % ps.length,
        by simp [get_proxy_loop, hget, hc], hmod, ?_⟩
      intro p hp
      cases hp
      exact ⟨List.getElem_mem hi, hc⟩
    · obtain ⟨r, i2, h1, h2, h3⟩ := ih ((i + 1) % ps.length) hmod
      exact ⟨r, i2, by simp [get_proxy_loop, hget, hc, h1], h2, h3⟩

theorem get_proxy_loop_finds (failed : List (String × Nat)) (ps : List String) :
    ∀ fuel i, i < ps.length →
      (∃ j p, j < fuel ∧ ps[(i + j) % ps.length]? = some p ∧ fget failed p < 3) →
      ∃ p i2, get_proxy_loop failed ps fuel i = some (some p, i2) ∧
        p ∈ ps ∧ i2 < ps.length := by
  intro fuel
  induction fuel with
  | zero =>
    intro i _ h
    obtain ⟨j, p, hj, _, _⟩ := h
    omega
  | succ n ih =>
    intro i hi h
    have hget : ps[i]? = some ps[i] := List.getElem?_eq_getElem hi
    have hlen : 0 < ps.length := Nat.lt_of_le_of_lt (Nat.zero_le _) hi
    have hmod : (i + 1) % ps.length < ps.length := Nat.mod_lt _ hlen
    by_cases hc : fget failed (ps[i]) < 3
    · exact ⟨ps[i], (i + 1) % ps.length, by simp [get_proxy_loop, hget, hc],
        List.getElem_mem hi, hmod⟩
    · obtain ⟨j, p, hj, hjp, hjc⟩ := h
      have hj0 : j ≠ 0 := by
        intro h0
        subst h0
        rw [Nat.add_zero, Nat.mod_eq_of_lt hi, hget] at hjp
        cases hjp
        exact hc hjc
      obtain ⟨j', rfl⟩ := Nat.exists_eq_succ_of_ne_zero hj0
      have hrw : ((i + 1) % ps.length + j') % ps.length = (i + (j' + 1)) % ps.length := by
        rw [Nat.mod_add_mod]
        congr 1
        omega
      obtain ⟨p2, i2, h2, hm2, hi2⟩ :=
        ih ((i + 1) % ps.length) hmod ⟨j', p, by omega, by rw [hrw]; exact hjp, hjc⟩
      exact ⟨p2, i2, by simp [get_proxy_loop, hget, hc, h2], hm2, hi2⟩

theorem get_next_loop_wf (failed : List (String × Nat)) (cur : Option String) (ps : List String) :
    ∀ fuel i, i < ps.length →
      ∃ r i2, get_next_loop failed cur ps fuel i = some (r, i2) ∧ i2 < ps.length ∧
        (∀ p, r = some p → p ∈ ps ∧ fget failed p < 3) := by
  intro fuel
  induction fuel with
  | zero => intro i hi; exact ⟨none, i, rfl, hi, by simp⟩
  | succ n ih =>
    intro i hi
    have hget : ps[i]? = some ps[i] := List.getElem?_eq_getElem hi
    have hlen : 0 < ps.length := Nat.lt_of_le_of_lt (Nat.zero_le _) hi
    have hmod : (i + 1) % ps.length < ps.length := Nat.mod_lt _ hlen
    by_cases hc : some (ps[i]) ≠ cur ∧ fget failed (ps[i]) < 3
    · refine ⟨some (ps[i]), (i + 1) % ps.length,
        by simp [get_next_loop, hget, hc], hmod, ?_⟩
      intro p hp
      cases hp
      exact ⟨List.getElem_mem hi, hc.2⟩
    · obtain ⟨r, i2, h1, h2, h3⟩ := ih ((i + 1) % ps.length) hmod
      exact ⟨r, i2, by simp [get_next_loop, hget, hc, h1], h2, h3⟩

theorem get_next_loop_all_fail (failed : List (String × Nat)) (cur : Option String)
    (ps : List String) (hall : ∀ p ∈ ps, ¬(some p ≠ cur ∧ fget failed p < 3)) :
    ∀ fuel i, i < ps.length →
      ∃ i2, get_next_loop failed cur ps fuel i = some (none, i2) := by
  intro fuel
  induction fuel with
  | zero => intro i _; exact ⟨i, rfl⟩
  | succ n ih =>
    intro i hi
    have hget : ps[i]? = some ps[i] := List.getElem?_eq_getElem hi
    have hlen : 0 < ps.length := Nat.lt_of_le_of_lt (Nat.zero_le _) hi
    have hmod : (i + 1) % ps.length < ps.length := Nat.mod_lt _ hlen
    have hc : ¬(some (ps[i]) ≠ cur ∧ fget failed (ps[i]) < 3) :=
      hall _ (List.getElem_mem hi)
    obtain ⟨i2, h2⟩ := ih ((i + 1) % ps.length) hmod
    exact ⟨i2, by simp [get_next_loop, hget, hc, h2]⟩

/-- Under the reset policy some proxy is always usable once the pool is
non-empty: either the reset just cleared all counts, or some count is < 3. -/
theorem exists_usable (s : ProxyManager) (hne : s.proxies ≠ []) :
    ∃ p ∈ s.proxies,
      fget (if s.proxies.all (fun q => 3 ≤ fget s.failed q) then [] else s.failed) p < 3 := by
  by_cases hall : (s.proxies.all fun q => decide (3 ≤ fget s.failed q)) = true
  · obtain ⟨p, hp⟩ := List.exists_mem_of_ne_nil s.proxies hne
    refine ⟨p, hp, ?_⟩
    rw [if_pos hall]
    simp [fget]
  · have hex : ∃ p ∈ s.proxies, ¬ 3 ≤ fget s.failed p := by
      by_contra hno
      push_neg at hno
      exact hall (List.all_eq_true.mpr fun x hx => decide_eq_true (hno x hx))
    obtain ⟨p, hp, hlt⟩ := hex
    refine ⟨p, hp, ?_⟩
    rw [if_neg hall]
    omega

/-- Exact outcome of `get_proxy` on a non-empty pool with the cursor in range:
it returns `some` proxy of the pool, keeps the proxy list, and clears the
failure dict exactly when every proxy had count ≥ 3. -/
theorem get_proxy_spec (s : ProxyManager) (hwf : WFpm s) (hne : s.proxies ≠ []) :
    ∃ p i2, p ∈ s.proxies ∧ i2 < s.proxies.length ∧
      get_proxy s = some (some p,
        { s with failed := if s.proxies.all (fun q => 3 ≤ fget s.failed q) then [] else s.failed,
                 idx := i2 }) := by
  have hlen : 0 < s.proxies.length := List.length_pos.mpr hne
  have hidx : s.idx < s.proxies.length := by
    unfold WFpm at hwf
    omega
  obtain ⟨p, hp, hup⟩ := exists_usable s hne
  obtain ⟨j, hjlen, hj⟩ := List.mem_iff_getElem.mp hp
  have hk : (j + s.proxies.length - s.idx) % s.proxies.length < s.proxies.length :=
    Nat.mod_lt _ hlen
  have halign : (s.idx + (j + s.proxies.length - s.idx) % s.proxies.length) % s.proxies.length
      = j := by
    rw [Nat.add_mod_mod]
    have h1 : s.idx + (j + s.proxies.length - s.idx) = j + s.proxies.length := by omega
    rw [h1, Nat.add_mod_right, Nat.mod_eq_of_lt hjlen]
  obtain ⟨p2, i2, hloop, hp2, hi2⟩ := get_proxy_loop_finds
    (if s.proxies.all (fun q => 3 ≤ fget s.failed q) then [] else s.failed)
    s.proxies s.proxies.length s.idx hidx
    ⟨(j + s.proxies.length - s.idx) % s.proxies.length, p, hk, by
      rw [halign, List.getElem?_eq_getElem hjlen, hj], hup⟩
  refine ⟨p2, i2, hp2, hi2, ?_⟩
  simp only [get_proxy, if_neg hne]
  rw [hloop]

/-- `get_proxy` on the empty pool: returns `None`, state untouched. -/
theorem get_proxy_empty (s : ProxyManager) (h : s.proxies = []) :
    get_proxy s = some (none, s) := by
  simp [get_proxy, h]

/-- Facts preserved by the pool operations the engine performs. -/
def pmFrame (s s2 : ProxyManager) : Prop :=
  s2.proxies = s.proxies ∧ s2.allow_direct = s.allow_direct ∧
  s2.is_ready = s.is_ready ∧ s2.refreshing = s.refreshing ∧ (WFpm s → WFpm s2)

theorem pmFrame_refl (s : ProxyManager) : pmFrame s s := ⟨rfl, rfl, rfl, rfl, id⟩

theorem pmFrame_trans {a b c : ProxyManager} (h1 : pmFrame a b) (h2 : pmFrame b c) :
    pmFrame a c := by
  obtain ⟨p1, d1, r1, f1, w1⟩ := h1
  obtain ⟨p2, d2, r2, f2, w2⟩ := h2
  exact ⟨p2.trans p1, d2.trans d1, r2.trans r1, f2.trans f1, fun h => w2 (w1 h)⟩

/-- `get_proxy` never raises on a well-formed state, preserves the pool and the
cursor bound, and returns `None` exactly on the empty pool. -/
theorem get_proxy_total (s : ProxyManager) (hwf : WFpm s) :
    ∃ r s2, get_proxy s = some (r, s2) ∧ pmFrame s s2 ∧
      (r = none ↔ s.proxies = []) ∧ (∀ p, r = some p → p ∈ s.proxies) := by
  by_cases hne : s.proxies = []
  · exact ⟨none, s, get_proxy_empty s hne, pmFrame_refl s, by simp [hne], by simp⟩
  · obtain ⟨p, i2, hp, hi2, heq⟩ := get_proxy_spec s hwf hne
    refine ⟨some p, _, heq, ⟨rfl, rfl, rfl, rfl, fun _ => ?_⟩, by simp [hne], ?_⟩
    · unfold WFpm
      simp
      omega
    · intro q hq
      injection hq with h
      rw [← h]
      exact hp

/-- `get_next_proxy` never raises on a well-formed state, never touches the
failure dict or the pool, and any returned proxy belongs to the pool. -/
theorem get_next_proxy_total (s : ProxyManager) (cur : Option String) (hwf : WFpm s) :
    ∃ r s2, get_next_proxy s cur = some (r, s2) ∧ pmFrame s s2 ∧
      s2.failed = s.failed ∧ (∀ p, r = some p → p ∈ s.proxies) := by
  by_cases hne : s.proxies = []
  · exact ⟨none, s, by simp [get_next_proxy, hne], pmFrame_refl s, rfl, by simp⟩
  · by_cases h1 : s.proxies.length = 1
    · by_cases hu : fget s.failed (s.proxies.headD "") < 3
      · refine ⟨some (s.proxies.headD ""), s, ?_, pmFrame_refl s, rfl, ?_⟩
        · simp only [List.headD_eq_head?] at hu ⊢
          simp [get_next_proxy, hne, h1, hu]
        · intro p hp
          injection hp with h
          rw [← h]
          exact headD_mem hne _
      · refine ⟨none, s, ?_, pmFrame_refl s, rfl, by simp⟩
        simp only [List.headD_eq_head?] at hu
        simp [get_next_proxy, hne, h1, hu]
    · have hidx : s.idx < s.proxies.length := by
        have := List.length_pos.mpr hne
        unfold WFpm at hwf
        omega
      obtain ⟨r, i2, hL, hi2, hmem⟩ :=
        get_next_loop_wf s.failed cur s.proxies s.proxies.length s.idx hidx
      have hfr : pmFrame s { s with idx := i2 } := by
        refine ⟨rfl, rfl, rfl, rfl, fun _ => ?_⟩
        unfold WFpm
        simp
        omega
      cases r with
      | some p =>
        refine ⟨some p, _, ?_, hfr, rfl, ?_⟩
        · simp [get_next_proxy, hne, h1, hL]
        · intro q hq
          injection hq with h
          rw [← h]
          exact (hmem p rfl).1
      | none =>
        by_cases hf : 3 ≤ fget s.failed (s.proxies.headD "")
        · refine ⟨none, _, ?_, hfr, rfl, by simp⟩
          simp only [List.headD_eq_head?] at hf
          simp [get_next_proxy, hne, h1, hL, hf]
        · refine ⟨some (s.proxies.headD ""), _, ?_, hfr, rfl, ?_⟩
          · simp only [List.headD_eq_head?] at hf ⊢
            simp [get_next_proxy, hne, h1, hL, hf]
          · intro q hq
            injection hq with h
            rw [← h]
            exact headD_mem hne _

theorem mark_failed_frame (s : ProxyManager) (p : String) :
    pmFrame s (mark_failed s p) ∧ (mark_failed s p).idx = s.idx := by
  unfold mark_failed pmFrame WFpm
  split <;> simp

theorem mark_success_frame (s : ProxyManager) (p : String) :
    pmFrame s (mark_success s p) ∧ (mark_success s p).idx = s.idx := by
  unfold mark_success pmFrame WFpm
  split <;> simp

/-- Shared core of C3 and C10: with a non-empty pool whose proxies all have
failure count ≥ 3, `get_proxy` clears the failure dict and returns a proxy. -/
theorem get_proxy_all_failed (s : ProxyManager) (hwf : WFpm s) (hne : s.proxies ≠ [])
    (hall : ∀ p ∈ s.proxies, 3 ≤ fget s.failed p) :
    ∃ p s2, get_proxy s = some (some p, s2) ∧ p ∈ s.proxies ∧ s2.failed = [] := by
  have hallb : (s.proxies.all fun q => decide (3 ≤ fget s.failed q)) = true :=
    List.all_eq_true.mpr fun x hx => decide_eq_true (hall x hx)
  obtain ⟨p, i2, hp, hi2, heq⟩ := get_proxy_spec s hwf hne
  rw [if_pos hallb] at heq
  exact ⟨p, _, heq, hp, rfl⟩

/-- C3: on a non-empty pool in which every known proxy has failure count ≥ 3, a
single `get_proxy` call first clears all failure counts and then returns some
proxy, whose failure count is 0 immediately after the call. -/
theorem C3_get_proxy_reset (s : ProxyManager) (hwf : WFpm s) (hne : s.proxies ≠ [])
    (hall : ∀ p ∈ s.proxies, 3 ≤ fget s.failed p) :
    ∃ p s2, get_proxy s = some (some p, s2) ∧ p ∈ s.proxies ∧
      s2.failed = [] ∧ fget s2.failed p = 0 := by
  obtain ⟨p, s2, heq, hp, hclr⟩ := get_proxy_all_failed s hwf hne hall
  refine ⟨p, s2, heq, hp, hclr, ?_⟩
  rw [hclr]
  rfl

/-- The spec's reset scenario: three proxies, each with failure count 3. -/
def pmC3 : ProxyManager :=
  { proxies := ["http://a:1", "http://b:2", "http://c:3"]
    failed := [("http://a:1", 3), ("http://b:2", 3), ("http://c:3", 3)]
    idx := 0, is_ready := true, allow_direct := true, refreshing := false }

/-- C3 witness: the reset scenario evaluated on a concrete pool. -/
theorem C3_get_proxy_reset_witness :
    ∃ p s2, get_proxy pmC3 = some (some p, s2) ∧ p ∈ pmC3.proxies ∧
      s2.failed = [] ∧ fget s2.failed p = 0 :=
  C3_get_proxy_reset pmC3 (by decide) (by decide) (by decide)

/-- C7: `get_proxy` on an empty pool returns none; `get_next_proxy` on a
single-proxy pool returns the proxy iff usable; on a pool of ≥ 2 proxies, when
a full cycle finds no usable proxy different from the excluded one, the call
falls back to the first proxy iff that first proxy is usable. -/
theorem C7_boundary_and_fallback :
    (∀ s : ProxyManager, s.proxies = [] → get_proxy s = some (none, s)) ∧
    (∀ (s : ProxyManager) (cur : Option String) (p : String), s.proxies = [p] →
      get_next_proxy s cur =
        some (if fget s.failed p < 3 then (some p, s) else (none, s))) ∧
    (∀ (s : ProxyManager) (cur : Option String), 2 ≤ s.proxies.length → WFpm s →
      (∀ p ∈ s.proxies, ¬(some p ≠ cur ∧ fget s.failed p < 3)) →
      ∃ i2, get_next_proxy s cur =
        some (if fget s.failed (s.proxies.headD "") < 3
              then (some (s.proxies.headD ""), { s with idx := i2 })
              else (none, { s with idx := i2 }))) := by
  refine ⟨fun s h => get_proxy_empty s h, ?_, ?_⟩
  · intro s cur p hp
    simp [get_next_proxy, hp]
  · intro s cur h2 hwf hall
    have hne : s.proxies ≠ [] := by
      intro h
      rw [h] at h2
      simp at h2
    have h1 : ¬ s.proxies.length = 1 := by omega
    have hidx : s.idx < s.proxies.length := by
      have := List.length_pos.mpr hne
      unfold WFpm at hwf
      omega
    obtain ⟨i2, hL⟩ :=
      get_next_loop_all_fail s.failed cur s.proxies hall s.proxies.length s.idx hidx
    refine ⟨i2, ?_⟩
    by_cases hf : fget s.failed (s.proxies.headD "") < 3
    · rw [if_pos hf]
      have hf2 : ¬ 3 ≤ fget s.failed (s.proxies.headD "") := by omega
      simp only [List.headD_eq_head?] at hf2 ⊢
      simp [get_next_proxy, hne, h1, hL, hf2]
    · rw [if_neg hf]
      have hf2 : 3 ≤ fget s.failed (s.proxies.headD "") := by omega
      simp only [List.headD_eq_head?] at hf2
      simp [get_next_proxy, hne, h1, hL, hf2]

/-- A single-proxy pool whose proxy has failure count 3 (spec's boundary case). -/
def pmC7 : ProxyManager :=
  { proxies := ["http://a:1"], failed := [("http://a:1", 3)]
    idx := 0, is_ready := true, allow_direct := true, refreshing := false }

/-- An exhausted two-proxy pool with the cursor at 0. -/
def pmC7b : ProxyManager :=
  { proxies := ["http://a:1", "http://b:2"]
    failed := [("http://a:1", 3), ("http://b:2", 4)]
    idx := 0, is_ready := true, allow_direct := true, refreshing := false }

/-- C7 witness: all three boundary cases evaluated on concrete pools. -/
theorem C7_boundary_and_fallback_witness :
    get_proxy { proxies := [], failed := [], idx := 0, is_ready := false,
                allow_direct := true, refreshing := false } =
      some (none, { proxies := [], failed := [], idx := 0, is_ready := false,
                    allow_direct := true, refreshing := false }) ∧
    get_next_proxy pmC7 none =
      some (if fget pmC7.failed "http://a:1" < 3 then (some "http://a:1", pmC7)
            else (none, pmC7)) ∧
    (∃ i2, get_next_proxy pmC7b none =
      some (if fget pmC7b.failed (pmC7b.proxies.headD "") < 3
            then (some (pmC7b.proxies.headD ""), { pmC7b with idx := i2 })
            else (none, { pmC7b with idx := i2 }))) :=
  ⟨C7_boundary_and_fallback.1 _ rfl,
   C7_boundary_and_fallback.2.1 pmC7 none "http://a:1" rfl,
   C7_boundary_and_fallback.2.2 pmC7b none (by decide) (by decide) (by decide)⟩

/-- C9: `auto_refresh` is idempotent: the first call (flag clear) launches a
cycle and sets the flag; a second call made while that flag is still set
launches nothing and leaves the whole state unchanged. -/
theorem C9_auto_refresh_idempotent (s : ProxyManager) (h : s.refreshing = false) :
    auto_refresh s = (true, { s with refreshing := true }) ∧
    auto_refresh { s with refreshing := true } = (false, { s with refreshing := true }) := by
  constructor
  · simp [auto_refresh, h]
  · simp [auto_refresh]

/-- C9 witness: both calls evaluated on a concrete manager. -/
theorem C9_auto_refresh_idempotent_witness :
    auto_refresh pmC3 = (true, { pmC3 with refreshing := true }) ∧
    auto_refresh { pmC3 with refreshing := true } = (false, { pmC3 with refreshing := true }) :=
  C9_auto_refresh_idempotent pmC3 rfl

/-- C10: with ≥ 2 proxies all at failure count ≥ 3, `get_next_proxy` returns
none and changes only the cursor — the failure dict and the proxy list are
untouched (no reset) — while `get_proxy` on the same state fires the reset and
returns a proxy. -/
theorem C10_get_next_no_reset (s : ProxyManager) (cur : Option String)
    (h2 : 2 ≤ s.proxies.length) (hwf : WFpm s)
    (hall : ∀ p ∈ s.proxies, 3 ≤ fget s.failed p) :
    (∃ i2, get_next_proxy s cur = some (none, { s with idx := i2 })) ∧
    (∃ p s2, get_proxy s = some (some p, s2) ∧ s2.failed = []) := by
  have hne : s.proxies ≠ [] := by
    intro h
    rw [h] at h2
    simp at h2
  have h1 : ¬ s.proxies.length = 1 := by omega
  have hidx : s.idx < s.proxies.length := by
    have := List.length_pos.mpr hne
    unfold WFpm at hwf
    omega
  have hallfail : ∀ p ∈ s.proxies, ¬(some p ≠ cur ∧ fget s.failed p < 3) := by
    intro p hp hcon
    have := hall p hp
    omega
  obtain ⟨i2, hL⟩ :=
    get_next_loop_all_fail s.failed cur s.proxies hallfail s.proxies.length s.idx hidx
  have hf : 3 ≤ fget s.failed (s.proxies.headD "") := hall _ (headD_mem hne _)
  constructor
  · refine ⟨i2, ?_⟩
    simp only [List.headD_eq_head?] at hf
    simp [get_next_proxy, hne, h1, hL, hf]
  · obtain ⟨p, s2, heq, _, hclr⟩ := get_proxy_all_failed s hwf hne hall
    exact ⟨p, s2, heq, hclr⟩

/-- C10 witness: the exhausted two-proxy pool evaluated concretely. -/
theorem C10_get_next_no_reset_witness :
    (∃ i2, get_next_proxy pmC7b (some "http://a:1") = some (none, { pmC7b with idx := i2 })) ∧
    (∃ p s2, get_proxy pmC7b = some (some p, s2) ∧ s2.failed = []) :=
  C10_get_next_no_reset pmC7b (some "http://a:1") (by decide) (by decide) (by decide)

/-- A non-empty pool owned by a manager that forbids direct connection. -/
def pmC8 : ProxyManager :=
  { proxies := ["http://x:1"], failed := [], idx := 0
    is_ready := false, allow_direct := false, refreshing := true }

/-- C8 counterexample: a collection cycle that validates zero candidates while
`allow_direct` is false leaves the previous (non-empty) pool in place — the
pool is NOT set to the empty list, though readiness is set. -/
theorem C8_counterexample :
    (refresh_adopt pmC8 [] []).proxies = ["http://x:1"] ∧
    (refresh_adopt pmC8 [] []).proxies ≠ [] ∧
    (refresh_adopt pmC8 [] []).is_ready = true := by
  decide

/-- C8 (amended): when zero candidates validate, readiness is always set and no
unvalidated candidate is adopted; the pool is set to the empty list exactly
when direct connection is allowed, and is left unchanged otherwise. -/
theorem C8_zero_valid_adoption (s : ProxyManager) (mv : List String) :
    (refresh_adopt s [] mv).is_ready = true ∧
    (s.allow_direct = true → (refresh_adopt s [] mv).proxies = []) ∧
    (s.allow_direct = false → (refresh_adopt s [] mv).proxies = s.proxies) := by
  unfold refresh_adopt
  cases h : s.allow_direct <;> simp [h]

/-- C8 witness: the amended statement evaluated with direct connection allowed
and with it forbidden. -/
theorem C8_zero_valid_adoption_witness :
    ((refresh_adopt pmC3 [] []).is_ready = true ∧
      (refresh_adopt pmC3 [] []).proxies = []) ∧
    ((refresh_adopt pmC8 [] []).is_ready = true ∧
      (refresh_adopt pmC8 [] []).proxies = pmC8.proxies) :=
  ⟨⟨(C8_zero_valid_adoption pmC3 []).1, (C8_zero_valid_adoption pmC3 []).2.1 rfl⟩,
   ⟨(C8_zero_valid_adoption pmC8 []).1, (C8_zero_valid_adoption pmC8 []).2.2 rfl⟩⟩

/-- The pool of the C4 failing run before any operation. -/
def pmC4 : ProxyManager :=
  { proxies := ["http://a:1", "http://b:2"], failed := [], idx := 0
    is_ready := true, allow_direct := true, refreshing := false }

/-- State after one `get_proxy` call on `pmC4`: the cursor has advanced to 1. -/
def pmC4b : ProxyManager := { pmC4 with idx := 1 }

/-- C4: the cursor invariant is broken by the collection cycle's swap-in.  On a
two-proxy pool, one `get_proxy` call moves the cursor to 1; a refresh that
swaps in a single validated proxy keeps the cursor at 1 with a pool of length
1, so the cursor is no longer in `[0, len)` and the next `get_proxy` indexes
out of range — a Python `IndexError`, modelled by the result `none`. -/
theorem C4_cursor_out_of_range :
    get_proxy pmC4 = some (some "http://a:1", pmC4b) ∧
    (refresh_adopt pmC4b ["http://c:3"] []).proxies.length = 1 ∧
    (refresh_adopt pmC4b ["http://c:3"] []).idx = 1 ∧
    get_proxy (refresh_adopt pmC4b ["http://c:3"] []) = none := by
  decide

/-! ## The unified search engine (src/fofa_hack/core/unified_client.py) -/

/-- One normalized asset record (models/search.py `SearchResult`). -/
structure SearchRecord where
  link : String
  host : String
  port : Nat
  title : String
  ip : String
  city : String
  asn : String
  organization : String
  server : String
  mtime : String
  deriving Repr, DecidableEq

/-- The `data` dict of a `FofaResponse` as read by the engine: the `assets`
list (`data.get('assets', [])`) and the `total` entry (`data.get('total')`,
`none` when missing).  The `page` entry the engine writes is never read back
and is omitted. -/
structure RespData where
  assets : List SearchRecord
  total : Option Nat
  deriving Repr, DecidableEq

/-- `FofaResponse` (models/search.py).  `data = none` models a falsy (empty)
data dict. -/
structure FofaResponse where
  code : Int
  message : String
  data : Option RespData
  deriving Repr, DecidableEq

/-- Is `w` a prefix of `s` (over character lists)? -/
def charsPrefix : List Char → List Char → Bool
  | [], _ => true
  | _ :: _, [] => false
  | a :: as, b :: bs => a == b && charsPrefix as bs

/-- Does `w` occur inside `s` (over character lists)? -/
def charsContains (w : List Char) : List Char → Bool
  | [] => charsPrefix w []
  | c :: rest => charsPrefix w (c :: rest) || charsContains w rest

/-- Python `w in s` (substring containment), computed over the character
lists so that it evaluates inside the kernel. -/
def strContains (s w : String) : Bool := charsContains w.data s.data

/-- Python `s.lower()`, computed over the character list so that it
evaluates inside the kernel. -/
def strLower (s : String) : String := String.mk (s.data.map Char.toLower)

/-- The ban-indicating substrings of `_is_ban_response` (line 98). -/
def banWords : List String := ["ip访问异常", "爬虫", "禁止访问", "访问异常", "验证码"]

/-- `_is_ban_response` applied to `response.model_dump()`: a model dump is a
non-empty dict, so the `if not data` guard never fires at this call site. -/
def is_ban_response (r : FofaResponse) : Bool :=
  if r.code = -3000 then true
  else if r.code = 850100 then true
  else banWords.any (fun w => strContains (strLower r.message) w)

/-- The HTML ban markers of `_is_ban_html` (line 108). -/
def banHtmlWords : List String := ["[-3000]", "IP访问异常", "爬虫", "禁止访问", "访问异常"]

/-- `_is_ban_html`: an empty body counts as a ban; then the CAPTCHA marker and
the ban words. -/
def is_ban_html (html : String) : Bool :=
  if html = "" then true
  else if strContains (strLower html) "captcha" || strContains html "/captcha" then true
  else banHtmlWords.any (fun w => strContains html w)

/-- `AccessMode` (unified_client.py lines 20-24). -/
inductive AccessMode where
  | api
  | web
  | auto
  deriving Repr, DecidableEq

/-- State of a `UnifiedFofaClient`: access mode, proxy manager, the assigned
proxy `config.proxy`, the memoized client slots (`some p` = a client exists
whose `config.proxy` is `p`), the target `config.end_count`, and the session
counters. -/
structure Engine where
  mode : AccessMode
  pm : ProxyManager
  proxy : Option String
  api_client : Option (Option String)
  web_client : Option (Option String)
  end_count : Nat
  total : Nat
  success : Nat
  failed : Nat
  ban_count : Nat
  deriving Repr, DecidableEq

/-- Outcome of one `ApiFofaClient.search` call, supplied as an oracle: an
exception with message `msg`, or a returned `Optional[FofaResponse]`. -/
inductive ApiOutcome where
  | exc (msg : String)
  | resp (r : Option FofaResponse)
  deriving Repr, DecidableEq

/-- Outcome of one anonymous-client round, supplied as an oracle: `exc` = an
exception raised inside the guarded block; `ret html parsed` = `_make_request`
returned `html`, and `parsed` is what `_parse_json_response` +
`_extract_assets_from_data` + `_parse_asset_to_result` yield on that html —
`none` for a falsy data dict, `some (results, t)` where
`t = data.get('data', {}).get('total')`. -/
inductive WebOutcome where
  | exc (msg : String)
  | ret (html : Option String) (parsed : Option (List SearchRecord × Option Nat))
  deriving Repr, DecidableEq

/-- Python truthiness of an optional string (`None` and `""` are falsy). -/
def optFalsy : Option String → Bool
  | none => true
  | some s => s = ""

/-- `mark_failed` on the optional `config.proxy` (`None` marks nothing). -/
def mark_failed_opt (s : ProxyManager) : Option String → ProxyManager
  | none => s
  | some p => mark_failed s p

/-- `mark_success` on the optional `config.proxy` (`None` marks nothing). -/
def mark_success_opt (s : ProxyManager) : Option String → ProxyManager
  | none => s
  | some p => mark_success s p

/-- The mutations `_proxy_failed` performs before its `get_next_proxy` call:
mark the assigned proxy failed and bump the session failure counter. -/
def markAndBump (e : Engine) : Engine :=
  { e with pm := mark_failed_opt e.pm e.proxy, failed := e.failed + 1 }

/-- `_proxy_failed` (lines 289-303): mark the assigned proxy failed, bump the
counter, then switch to `get_next_proxy(config.proxy)` when one is found.
`none` = the `get_next_proxy` call raised `IndexError`. -/
def proxy_failed (e : Engine) : Option Engine :=
  let e1 := markAndBump e
  match get_next_proxy e1.pm e1.proxy with
  | none => none
  | some (some np, pm2) =>
    some { e1 with pm := pm2, proxy := some np, api_client := none, web_client := none }
  | some (none, pm2) => some { e1 with pm := pm2 }

/-- `_proxy_failed` as called inside the stage-1 `try`: an `IndexError` raised
by its `get_next_proxy` is caught by the stage-1 handler (the message contains
neither "timeout" nor "connection", so the handler does nothing more) and
control falls through with the mutations made before the raise. -/
def proxy_failed_caught (e : Engine) : Engine :=
  (proxy_failed e).getD (markAndBump e)

/-- Result of one stage of `search`: `returned r e` = `search` returns `r`
now; `fell e` = control falls through to the next stage. -/
inductive StageOut where
  | returned (r : Option FofaResponse) (e : Engine)
  | fell (e : Engine)
  deriving Repr, DecidableEq

/-- The engine state carried by a stage outcome. -/
def StageOut.engine : StageOut → Engine
  | .returned _ e => e
  | .fell e => e

/-- Lines 160-186 of stage 1, inside the `try`: the `api_client` property
re-reads the pool (a raise is caught by the handler at 187), the request is
issued, and the outcome dispatched: ban or `None` response → count the ban and
`_proxy_failed` (whose own raise is caught by the handler); success with
assets → count the success, `mark_success(config.proxy)`, return the
response; success without assets or without data → fall through.  The result
is `none` only when the handler branch's `_proxy_failed` raises. -/
def stage1_request (api : ApiOutcome) (e0 : Engine) : Option StageOut :=
  match get_proxy e0.pm with
  | none => some (.fell e0)
  | some (cp2, pm2) =>
    let e := { e0 with pm := pm2, api_client := some cp2 }
    match api with
    | .exc msg =>
      if strContains (strLower msg) "timeout" || strContains (strLower msg) "connection" then
        match proxy_failed e with
        | none => none
        | some e2 => some (.fell e2)
      else some (.fell e)
    | .resp none =>
      some (.fell (proxy_failed_caught { e with ban_count := e.ban_count + 1 }))
    | .resp (some r) =>
      if is_ban_response r then
        some (.fell (proxy_failed_caught { e with ban_count := e.ban_count + 1 }))
      else
        match r.data with
        | some rd =>
          if rd.assets ≠ [] then
            some (.returned (some r)
              { e with success := e.success + 1, pm := mark_success_opt e.pm e.proxy })
          else some (.fell e)
        | none => some (.fell e)

/-- Stage 1 of `UnifiedFofaClient.search` (lines 149-190): run when the mode
is API or AUTO; bump `total`, re-read the pool (an `IndexError` is caught by
the handler at 187, whose message check matches nothing, so control falls
through), sync `config.proxy` to the fresh proxy, then issue the request. -/
def stage1 (api : ApiOutcome) (e0 : Engine) : Option StageOut :=
  if e0.mode = AccessMode.api ∨ e0.mode = AccessMode.auto then
    let e := { e0 with total := e0.total + 1 }
    match get_proxy e.pm with
    | none => some (.fell e)
    | some (cp, pm1) =>
      let e := { e with pm := pm1 }
      stage1_request api (if cp ≠ e.proxy then { e with proxy := cp, api_client := none } else e)
  else some (.fell e0)

/-- The `for retry in range(8)` proxy-wait loop of stage 2 (lines 198-205):
each iteration re-reads the pool and breaks on a truthy proxy.  `none` = an
`IndexError` from `get_proxy` (this loop is outside the stage's `try`). -/
def poll_proxy : Nat → ProxyManager → Option (Option String × ProxyManager)
  | 0, pm => some (none, pm)
  | n+1, pm =>
    match get_proxy pm with
    | none => none
    | some (cp, pm1) =>
      if optFalsy cp then poll_proxy n pm1
      else some (cp, pm1)

/-- The normalized response stage 2 builds on success (lines 238-242): code
200, message "success", the parsed records, and
`total = data.get('data', {}).get('total', len(results))`. -/
def web_response (results : List SearchRecord) (t : Option Nat) : FofaResponse :=
  { code := 200, message := "success",
    data := some { assets := results, total := some (t.getD results.length) } }

/-- Lines 215-246 of stage 2, the `try` block: bump `total`, let the
`web_client` property re-read the pool, issue the request, and dispatch: no
html or ban → `_proxy_failed` (a raise anywhere here reaches the handler at
247, which runs `_proxy_failed` itself; a raise inside that handler escapes
`search`, hence `none`); parsed results → count the success, mark the proxy,
return the normalized response; no parse or empty results → fall through. -/
def stage2_request (w : WebOutcome) (e0 : Engine) : Option StageOut :=
  let e := { e0 with total := e0.total + 1 }
  match get_proxy e.pm with
  | none =>
    match proxy_failed e with
    | none => none
    | some e2 => some (.fell e2)
  | some (cp2, pm2) =>
    let e := { e with pm := pm2, web_client := some cp2 }
    match w with
    | .exc _ =>
      match proxy_failed e with
      | none => none
      | some e2 => some (.fell e2)
    | .ret html parsed =>
      if optFalsy html then
        match proxy_failed e with
        | none => none
        | some e2 => some (.fell e2)
      else if is_ban_html (html.getD "") then
        match proxy_failed { e with ban_count := e.ban_count + 1 } with
        | none => none
        | some e2 => some (.fell e2)
      else
        match parsed with
        | none => some (.fell e)
        | some (results, t) =>
          if results ≠ [] then
            some (.returned (some (web_response results t))
              { e with success := e.success + 1,
                       pm := mark_success_opt e.pm e.proxy })
          else some (.fell e)

/-- Stage 2 of `search` (lines 192-249): the forced WEB attempt, entered
whenever the mode is AUTO or WEB (the mode is set to WEB on entry).  The poll
loop runs outside the `try`, so a raise there escapes `search`.  When no
proxy is assigned and direct connection is disallowed, the page fails
immediately (`return None`). -/
def stage2 (w : WebOutcome) (e0 : Engine) : Option StageOut :=
  if e0.mode = AccessMode.auto ∨ e0.mode = AccessMode.web then
    let e := { e0 with mode := AccessMode.web }
    match poll_proxy 8 e.pm with
    | none => none
    | some (found, pm1) =>
      let e := match found with
        | some p => { e with pm := pm1, proxy := some p, web_client := none }
        | none => { e with pm := pm1 }
      if optFalsy e.proxy ∧ e.pm.allow_direct = false then some (.returned none e)
      else stage2_request w e
  else some (.fell e0)

/-- Lines 262-279 of stage 3, the `try` block: bump `total`, let the
`web_client` property re-read the pool, issue the request; a truthy non-ban
html that parses to a non-empty result list is returned with
`total = len(results)`; everything else — including any raise
(`except: pass`) — falls through. -/
def stage3_request (w : WebOutcome) (e0 : Engine) : Option StageOut :=
  let e := { e0 with total := e0.total + 1 }
  match get_proxy e.pm with
  | none => some (.fell e)
  | some (cp2, pm2) =>
    let e := { e with pm := pm2, web_client := some cp2 }
    match w with
    | .exc _ => some (.fell e)
    | .ret html parsed =>
      match html with
      | none => some (.fell e)
      | some h =>
        if h ≠ "" ∧ is_ban_html h = false then
          match parsed with
          | none => some (.fell e)
          | some (results, _) =>
            if results ≠ [] then
              some (.returned
                (some { code := 200, message := "success",
                        data := some { assets := results,
                                       total := some results.length } })
                { e with success := e.success + 1,
                         pm := mark_success_opt e.pm e.proxy })
            else some (.fell e)
        else some (.fell e)

/-- Stage 3 of `search` (lines 251-279): the final WEB retry, run only when
the retry budget exceeds 1 and `get_proxy` (outside any `try`: a raise
escapes `search`) yields a truthy proxy different from the assigned one; the
mode is forced to WEB and one more anonymous request is issued. -/
def stage3 (w : WebOutcome) (max_retries : Nat) (e0 : Engine) : Option StageOut :=
  if 1 < max_retries then
    match get_proxy e0.pm with
    | none => none
    | some (cp, pm1) =>
      let e := { e0 with pm := pm1 }
      if optFalsy cp = false ∧ cp ≠ e.proxy then
        stage3_request w
          { e with proxy := cp, api_client := none, web_client := none,
                   mode := AccessMode.web }
      else some (.fell e)
  else some (.fell e0)

/-- `UnifiedFofaClient.search` (lines 133-287): stage 1 (API), stage 2 (forced
WEB), stage 3 (final retry), then `return None`.  The `query` and `page`
arguments only feed the outgoing requests and the unread `page` entry of the
response dict, so they do not appear in the stage bodies.  Outer `none` = an
uncaught exception escaping `search`. -/
def search (api : ApiOutcome) (w1 w2 : WebOutcome) (max_retries : Nat) (e : Engine) :
    Option (Option FofaResponse × Engine) :=
  match stage1 api e with
  | none => none
  | some (.returned r e1) => some (r, e1)
  | some (.fell e1) =>
    match stage2 w1 e1 with
    | none => none
    | some (.returned r e2) => some (r, e2)
    | some (.fell e2) =>
      match stage3 w2 max_retries e2 with
      | none => none
      | some (.returned r e3) => some (r, e3)
      | some (.fell e3) => some (none, e3)

/-- Per-page oracle for `search_all`: the outcomes of that page's API call and
of the two possible anonymous-client rounds. -/
structure PageOutcome where
  api : ApiOutcome
  w1 : WebOutcome
  w2 : WebOutcome

/-- The `total`-based early stop of `search_all` (lines 370-373):
`if response.data and response.data.get('total'):`, then break when
`total > 0 and len(all_results) >= total`. -/
def total_stop (r : FofaResponse) (acc_len : Nat) : Bool :=
  match r.data with
  | none => false
  | some rd =>
    match rd.total with
    | none => false
    | some t => if t ≠ 0 then decide (0 < t ∧ t ≤ acc_len) else false

/-- `assets = response.data.get('assets', [])` guarded by data truthiness
(lines 340-343); the per-record `SearchResult(...)` rebuild that follows is
the identity on already-normalized records. -/
def response_assets (r : FofaResponse) : List SearchRecord :=
  match r.data with
  | some rd => rd.assets
  | none => []

/-- The `while` loop of `search_all` (lines 311-377), fuel-indexed: every
iteration consumes one fuel unit and increments `page`, so `max_pages` fuel
units cover a run starting at page 1; at fuel 0 the guard `page ≤ max_pages`
is false as well, so both exits return the accumulator. -/
def search_all_loop (env : Nat → PageOutcome) (max_pages max_consecutive : Nat) :
    Nat → Nat → Nat → List SearchRecord → Engine → Option (List SearchRecord × Engine)
  | 0, _, _, acc, e => some (acc, e)
  | n+1, page, consecutive_failures, acc, e =>
    if acc.length < e.end_count ∧ page ≤ max_pages then
      match search (env page).api (env page).w1 (env page).w2 3 e with
      | none => none
      | some (none, e1) =>
        let cf := consecutive_failures + 1
        match get_proxy e1.pm with
        | none => none
        | some (gp, pm2) =>
          let e2 := { e1 with pm := pm2 }
          if gp = none ∧ e2.pm.allow_direct = false then some (acc, e2)
          else if max_consecutive ≤ cf then some (acc, e2)
          else search_all_loop env max_pages max_consecutive n (page + 1) cf acc e2
      | some (some r, e1) =>
        let acc2 := acc ++ response_assets r
        if e1.end_count ≤ acc2.length then some (acc2.take e1.end_count, e1)
        else if total_stop r acc2.length then some (acc2, e1)
        else search_all_loop env max_pages max_consecutive n (page + 1) 0 acc2 e1
    else some (acc, e)

/-- `UnifiedFofaClient.search_all` (lines 305-386). -/
def search_all (env : Nat → PageOutcome) (max_pages max_consecutive : Nat) (e : Engine) :
    Option (List SearchRecord × Engine) :=
  search_all_loop env max_pages max_consecutive max_pages 1 0 [] e

/-! ## Frame lemmas for the engine -/

/-- A successful `get_proxy` preserves the pool facts. -/
theorem get_proxy_eq_frame {s : ProxyManager} {r : Option String} {s2 : ProxyManager}
    (h : get_proxy s = some (r, s2)) : pmFrame s s2 := by
  by_cases hne : s.proxies = []
  · rw [get_proxy_empty s hne] at h
    injection h with h
    injection h with _ h2
    rw [← h2]
    exact pmFrame_refl s
  · unfold get_proxy at h
    rw [if_neg hne] at h
    simp only [] at h
    cases hL : get_proxy_loop
        (if s.proxies.all (fun p => 3 ≤ fget s.failed p) then [] else s.failed)
        s.proxies s.proxies.length s.idx with
    | none => rw [hL] at h; cases h
    | some ri =>
      obtain ⟨r', i2⟩ := ri
      rw [hL] at h
      injection h with h
      injection h with _ h2
      rw [← h2]
      refine ⟨rfl, rfl, rfl, rfl, fun hwf => ?_⟩
      have hidx : s.idx < s.proxies.length := by
        have := List.length_pos.mpr hne
        unfold WFpm at hwf
        omega
      obtain ⟨rw_, i2w, hLw, hi2w, _⟩ := get_proxy_loop_wf
        (if s.proxies.all (fun p => 3 ≤ fget s.failed p) then [] else s.failed)
        s.proxies s.proxies.length s.idx hidx
      rw [hL] at hLw
      injection hLw with hLw
      injection hLw with _ hLw2
      unfold WFpm
      simp
      omega

/-- A successful `get_next_proxy` preserves the pool facts and the failure
dict. -/
theorem get_next_proxy_eq_frame {s : ProxyManager} {cur : Option String}
    {r : Option String} {s2 : ProxyManager}
    (h : get_next_proxy s cur = some (r, s2)) : pmFrame s s2 ∧ s2.failed = s.failed := by
  by_cases hne : s.proxies = []
  · unfold get_next_proxy at h
    rw [if_pos hne] at h
    injection h with h
    injection h with _ h2
    rw [← h2]
    exact ⟨pmFrame_refl s, rfl⟩
  · by_cases h1 : s.proxies.length = 1
    · unfold get_next_proxy at h
      rw [if_neg hne, if_pos h1] at h
      injection h with h
      by_cases hu : fget s.failed (s.proxies.headD "") < 3
      · rw [if_pos hu] at h
        injection h with _ h2
        rw [← h2]
        exact ⟨pmFrame_refl s, rfl⟩
      · rw [if_neg hu] at h
        injection h with _ h2
        rw [← h2]
        exact ⟨pmFrame_refl s, rfl⟩
    · unfold get_next_proxy at h
      rw [if_neg hne, if_neg h1] at h
      cases hL : get_next_loop s.failed cur s.proxies s.proxies.length s.idx with
      | none => rw [hL] at h; cases h
      | some ri =>
        obtain ⟨r', i2⟩ := ri
        rw [hL] at h
        have hwfimp : WFpm s → WFpm { s with idx := i2 } := by
          intro hwf
          have hidx : s.idx < s.proxies.length := by
            have := List.length_pos.mpr hne
            unfold WFpm at hwf
            omega
          obtain ⟨rw_, i2w, hLw, hi2w, _⟩ := get_next_loop_wf s.failed cur s.proxies
            s.proxies.length s.idx hidx
          rw [hL] at hLw
          injection hLw with hLw
          injection hLw with _ hLw2
          unfold WFpm
          simp
          omega
        cases r' with
        | some p =>
          injection h with h
          injection h with _ h2
          rw [← h2]
          exact ⟨⟨rfl, rfl, rfl, rfl, hwfimp⟩, rfl⟩
        | none =>
          injection h with h
          by_cases hf : 3 ≤ fget s.failed (s.proxies.headD "")
          · rw [if_pos hf] at h
            injection h with _ h2
            rw [← h2]
            exact ⟨⟨rfl, rfl, rfl, rfl, hwfimp⟩, rfl⟩
          · rw [if_neg hf] at h
            injection h with _ h2
            rw [← h2]
            exact ⟨⟨rfl, rfl, rfl, rfl, hwfimp⟩, rfl⟩

theorem mark_failed_opt_frame (s : ProxyManager) (o : Option String) :
    pmFrame s (mark_failed_opt s o) := by
  cases o with
  | none => exact pmFrame_refl s
  | some p => exact (mark_failed_frame s p).1

theorem mark_success_opt_frame (s : ProxyManager) (o : Option String) :
    pmFrame s (mark_success_opt s o) := by
  cases o with
  | none => exact pmFrame_refl s
  | some p => exact (mark_success_frame s p).1

/-- A successful `_proxy_failed` preserves the pool frame, the mode and the
target count. -/
theorem proxy_failed_eq_frame {e e2 : Engine} (h : proxy_failed e = some e2) :
    pmFrame e.pm e2.pm ∧ e2.mode = e.mode ∧ e2.end_count = e.end_count := by
  unfold proxy_failed at h
  simp only [] at h
  have hmb : pmFrame e.pm (markAndBump e).pm := mark_failed_opt_frame e.pm e.proxy
  cases hg : get_next_proxy (markAndBump e).pm (markAndBump e).proxy with
  | none => rw [hg] at h; cases h
  | some rp =>
    obtain ⟨r, pm2⟩ := rp
    have hfr := (get_next_proxy_eq_frame hg).1
    rw [hg] at h
    cases r with
    | some np =>
      injection h with h
      rw [← h]
      exact ⟨pmFrame_trans hmb hfr, rfl, rfl⟩
    | none =>
      injection h with h
      rw [← h]
      exact ⟨pmFrame_trans hmb hfr, rfl, rfl⟩

/-- `_proxy_failed` with the stage-1 handler catch: always preserves the pool
frame, the mode and the target count. -/
theorem proxy_failed_caught_frame (e : Engine) :
    pmFrame e.pm (proxy_failed_caught e).pm ∧
    (proxy_failed_caught e).mode = e.mode ∧
    (proxy_failed_caught e).end_count = e.end_count := by
  unfold proxy_failed_caught
  cases hg : proxy_failed e with
  | none =>
    simp only [hg, Option.getD]
    exact ⟨mark_failed_opt_frame e.pm e.proxy, rfl, rfl⟩
  | some e2 =>
    simp only [hg, Option.getD]
    exact proxy_failed_eq_frame hg

/-- Engine facts preserved by every stage of `search`: the pool frame and the
target count. -/
def eFrame (e e2 : Engine) : Prop :=
  pmFrame e.pm e2.pm ∧ e2.end_count = e.end_count

theorem eFrame_refl (e : Engine) : eFrame e e := ⟨pmFrame_refl _, rfl⟩

theorem eFrame_trans {a b c : Engine} (h1 : eFrame a b) (h2 : eFrame b c) : eFrame a c :=
  ⟨pmFrame_trans h1.1 h2.1, h2.2.trans h1.2⟩

theorem stage1_request_frame {api : ApiOutcome} {e : Engine} {out : StageOut}
    (h : stage1_request api e = some out) :
    eFrame e out.engine ∧ out.engine.mode = e.mode := by
  unfold stage1_request at h
  simp only [] at h
  split at h
  next heq =>
    injection h with h
    subst h
    exact ⟨eFrame_refl e, rfl⟩
  next cp2 pm2 heq =>
    have hf2 : pmFrame e.pm pm2 := get_proxy_eq_frame heq
    split at h
    next msg =>
      split at h
      · split at h
        next hpf => cases h
        next e2 hpf =>
          injection h with h
          subst h
          obtain ⟨hp, hm, hc⟩ := proxy_failed_eq_frame hpf
          exact ⟨⟨pmFrame_trans hf2 hp, hc⟩, hm⟩
      · injection h with h
        subst h
        exact ⟨⟨hf2, rfl⟩, rfl⟩
    next =>
      injection h with h
      subst h
      obtain ⟨hp, hm, hc⟩ := proxy_failed_caught_frame
        { e with pm := pm2, api_client := some cp2, ban_count := e.ban_count + 1 }
      exact ⟨⟨pmFrame_trans hf2 hp, hc⟩, hm⟩
    next r =>
      split at h
      · injection h with h
        subst h
        obtain ⟨hp, hm, hc⟩ := proxy_failed_caught_frame
          { e with pm := pm2, api_client := some cp2, ban_count := e.ban_count + 1 }
        exact ⟨⟨pmFrame_trans hf2 hp, hc⟩, hm⟩
      · split at h
        next rd =>
          split at h
          · injection h with h
            subst h
            exact ⟨⟨pmFrame_trans hf2 (mark_success_opt_frame pm2 e.proxy), rfl⟩, rfl⟩
          · injection h with h
            subst h
            exact ⟨⟨hf2, rfl⟩, rfl⟩
        next =>
          injection h with h
          subst h
          exact ⟨⟨hf2, rfl⟩, rfl⟩

theorem stage1_frame {api : ApiOutcome} {e : Engine} {out : StageOut}
    (h : stage1 api e = some out) :
    eFrame e out.engine ∧ out.engine.mode = e.mode := by
  unfold stage1 at h
  split at h
  · simp only [] at h
    split at h
    next heq =>
      injection h with h
      subst h
      exact ⟨eFrame_refl e, rfl⟩
    next cp pm1 heq =>
      have hf1 : pmFrame e.pm pm1 := get_proxy_eq_frame heq
      split at h
      · obtain ⟨⟨hp, hc⟩, hm⟩ := stage1_request_frame h
        exact ⟨⟨pmFrame_trans hf1 hp, hc⟩, hm⟩
      · obtain ⟨⟨hp, hc⟩, hm⟩ := stage1_request_frame h
        exact ⟨⟨pmFrame_trans hf1 hp, hc⟩, hm⟩
  · injection h with h
    subst h
    exact ⟨eFrame_refl e, rfl⟩

/-- A proxy the `get_proxy` loop returns always comes from the list. -/
theorem get_proxy_loop_mem (failed : List (String × Nat)) (ps : List String) :
    ∀ fuel i p i2, get_proxy_loop failed ps fuel i = some (some p, i2) → p ∈ ps := by
  intro fuel
  induction fuel with
  | zero =>
    intro i p i2 h
    injection h with h
    injection h with h1 _
    cases h1
  | succ n ih =>
    intro i p i2 h
    unfold get_proxy_loop at h
    split at h
    next => cases h
    next proxy heq =>
      simp only [] at h
      split at h
      · injection h with h
        injection h with h1 _
        injection h1 with h1
        subst h1
        exact List.get?_mem heq
      · exact ih _ p i2 h

/-- A proxy returned by `get_proxy` always comes from the pool. -/
theorem get_proxy_eq_mem {s : ProxyManager} {p : String} {s2 : ProxyManager}
    (h : get_proxy s = some (some p, s2)) : p ∈ s.proxies := by
  by_cases hne : s.proxies = []
  · rw [get_proxy_empty s hne] at h
    injection h with h
    injection h with h1 _
    cases h1
  · unfold get_proxy at h
    rw [if_neg hne] at h
    simp only [] at h
    split at h
    next => cases h
    next r i2 heq =>
      injection h with h
      injection h with h1 _
      subst h1
      exact get_proxy_loop_mem _ _ _ _ _ _ heq

/-- The proxy-wait loop preserves the pool frame, and a found proxy comes from
the pool and is truthy. -/
theorem poll_proxy_frame :
    ∀ fuel {pm : ProxyManager} {found : Option String} {pm1 : ProxyManager},
      poll_proxy fuel pm = some (found, pm1) →
      pmFrame pm pm1 ∧ (∀ p, found = some p → p ∈ pm.proxies ∧ p ≠ "") := by
  intro fuel
  induction fuel with
  | zero =>
    intro pm found pm1 h
    injection h with h
    injection h with h1 h2
    subst h2
    refine ⟨pmFrame_refl pm, ?_⟩
    intro p hp
    rw [← h1] at hp
    cases hp
  | succ n ih =>
    intro pm found pm1 h
    unfold poll_proxy at h
    split at h
    next => cases h
    next cp pmx heq =>
      have hfr := get_proxy_eq_frame heq
      split at h
      · obtain ⟨hp, hmem⟩ := ih h
        refine ⟨pmFrame_trans hfr hp, ?_⟩
        intro p hp2
        obtain ⟨hmem2, hne⟩ := hmem p hp2
        rw [hfr.1] at hmem2
        exact ⟨hmem2, hne⟩
      · next hcp =>
        injection h with h
        injection h with h1 h2
        subst h2
        refine ⟨hfr, ?_⟩
        intro p hp2
        rw [← h1] at hp2
        subst hp2
        refine ⟨get_proxy_eq_mem heq, ?_⟩
        intro hps
        exact hcp (by simp [optFalsy, hps])

/-- On a well-formed state the proxy-wait loop never raises. -/
theorem poll_proxy_total :
    ∀ fuel (pm : ProxyManager), WFpm pm →
      ∃ found pm1, poll_proxy fuel pm = some (found, pm1) := by
  intro fuel
  induction fuel with
  | zero => intro pm _; exact ⟨none, pm, rfl⟩
  | succ n ih =>
    intro pm hwf
    obtain ⟨r, s2, heq, hfr, _, _⟩ := get_proxy_total pm hwf
    by_cases hcp : optFalsy r = true
    · obtain ⟨found, pm1, h1⟩ := ih s2 (hfr.2.2.2.2 hwf)
      refine ⟨found, pm1, ?_⟩
      rw [poll_proxy, heq]
      simp only []
      rw [if_pos hcp]
      exact h1
    · refine ⟨r, s2, ?_⟩
      rw [poll_proxy, heq]
      simp only []
      rw [if_neg hcp]

/-- On a well-formed, non-empty, ""-free pool the proxy-wait loop finds a
truthy proxy on its first iteration. -/
theorem poll_proxy_found {pm : ProxyManager} (hwf : WFpm pm) (hne : pm.proxies ≠ [])
    (hns : ∀ q ∈ pm.proxies, q ≠ "") (fuel : Nat) :
    ∃ p pm1, poll_proxy (fuel + 1) pm = some (some p, pm1) ∧
      p ∈ pm.proxies ∧ p ≠ "" ∧ pmFrame pm pm1 := by
  obtain ⟨p, i2, hp, hi2, heq⟩ := get_proxy_spec pm hwf hne
  have hpn : p ≠ "" := hns p hp
  have hcp : ¬ optFalsy (some p) = true := by simp [optFalsy, hpn]
  refine ⟨p, _, ?_, hp, hpn, get_proxy_eq_frame heq⟩
  rw [poll_proxy, heq]
  simp only []
  rw [if_neg hcp]

theorem stage2_request_frame {w : WebOutcome} {e : Engine} {out : StageOut}
    (h : stage2_request w e = some out) :
    eFrame e out.engine ∧ out.engine.mode = e.mode := by
  unfold stage2_request at h
  simp only [] at h
  split at h
  next heq =>
    split at h
    next hpf => cases h
    next e2 hpf =>
      injection h with h
      subst h
      obtain ⟨hp, hm, hc⟩ := proxy_failed_eq_frame hpf
      exact ⟨⟨hp, hc⟩, hm⟩
  next cp2 pm2 heq =>
    have hf2 : pmFrame e.pm pm2 := get_proxy_eq_frame heq
    split at h
    next =>
      split at h
      next hpf => cases h
      next e2 hpf =>
        injection h with h
        subst h
        obtain ⟨hp, hm, hc⟩ := proxy_failed_eq_frame hpf
        exact ⟨⟨pmFrame_trans hf2 hp, hc⟩, hm⟩
    next html parsed =>
      split at h
      · split at h
        next hpf => cases h
        next e2 hpf =>
          injection h with h
          subst h
          obtain ⟨hp, hm, hc⟩ := proxy_failed_eq_frame hpf
          exact ⟨⟨pmFrame_trans hf2 hp, hc⟩, hm⟩
      · split at h
        · split at h
          next hpf => cases h
          next e2 hpf =>
            injection h with h
            subst h
            obtain ⟨hp, hm, hc⟩ := proxy_failed_eq_frame hpf
            exact ⟨⟨pmFrame_trans hf2 hp, hc⟩, hm⟩
        · split at h
          next =>
            injection h with h
            subst h
            exact ⟨⟨hf2, rfl⟩, rfl⟩
          next results t =>
            split at h
            · injection h with h
              subst h
              exact ⟨⟨pmFrame_trans hf2 (mark_success_opt_frame pm2 e.proxy), rfl⟩, rfl⟩
            · injection h with h
              subst h
              exact ⟨⟨hf2, rfl⟩, rfl⟩

theorem stage2_frame {w : WebOutcome} {e : Engine} {out : StageOut}
    (h : stage2 w e = some out) :
    eFrame e out.engine ∧
    ((e.mode = AccessMode.auto ∨ e.mode = AccessMode.web) →
      out.engine.mode = AccessMode.web) ∧
    (¬(e.mode = AccessMode.auto ∨ e.mode = AccessMode.web) → out = .fell e) := by
  unfold stage2 at h
  split at h
  next hm =>
    simp only [] at h
    split at h
    next => cases h
    next found pm1 heq =>
      have hpoll := (poll_proxy_frame 8 heq).1
      cases found with
      | some p =>
        simp only [] at h
        split at h
        · injection h with h
          subst h
          exact ⟨⟨hpoll, rfl⟩, fun _ => rfl, fun hc => absurd hm hc⟩
        · obtain ⟨⟨hp, hc⟩, hmode⟩ := stage2_request_frame h
          exact ⟨⟨pmFrame_trans hpoll hp, hc⟩, fun _ => hmode, fun hc2 => absurd hm hc2⟩
      | none =>
        simp only [] at h
        split at h
        · injection h with h
          subst h
          exact ⟨⟨hpoll, rfl⟩, fun _ => rfl, fun hc => absurd hm hc⟩
        · obtain ⟨⟨hp, hc⟩, hmode⟩ := stage2_request_frame h
          exact ⟨⟨pmFrame_trans hpoll hp, hc⟩, fun _ => hmode, fun hc2 => absurd hm hc2⟩
  next hm =>
    injection h with h
    subst h
    exact ⟨eFrame_refl e, fun hc => absurd hc hm, fun _ => rfl⟩

theorem stage3_request_frame {w : WebOutcome} {e : Engine} {out : StageOut}
    (h : stage3_request w e = some out) :
    eFrame e out.engine ∧ out.engine.mode = e.mode := by
  unfold stage3_request at h
  simp only [] at h
  split at h
  next heq =>
    injection h with h
    subst h
    exact ⟨eFrame_refl e, rfl⟩
  next cp2 pm2 heq =>
    have hf2 : pmFrame e.pm pm2 := get_proxy_eq_frame heq
    split at h
    next =>
      injection h with h
      subst h
      exact ⟨⟨hf2, rfl⟩, rfl⟩
    next html parsed =>
      split at h
      next =>
        injection h with h
        subst h
        exact ⟨⟨hf2, rfl⟩, rfl⟩
      next hh =>
        split at h
        · split at h
          next =>
            injection h with h
            subst h
            exact ⟨⟨hf2, rfl⟩, rfl⟩
          next results t =>
            split at h
            · injection h with h
              subst h
              exact ⟨⟨pmFrame_trans hf2 (mark_success_opt_frame pm2 e.proxy), rfl⟩, rfl⟩
            · injection h with h
              subst h
              exact ⟨⟨hf2, rfl⟩, rfl⟩
        · injection h with h
          subst h
          exact ⟨⟨hf2, rfl⟩, rfl⟩

theorem stage3_frame {w : WebOutcome} {mr : Nat} {e : Engine} {out : StageOut}
    (h : stage3 w mr e = some out) :
    eFrame e out.engine ∧
    (out.engine.mode = e.mode ∨ out.engine.mode = AccessMode.web) := by
  unfold stage3 at h
  split at h
  · simp only [] at h
    split at h
    next => cases h
    next cp pm1 heq =>
      have hf1 : pmFrame e.pm pm1 := get_proxy_eq_frame heq
      split at h
      · obtain ⟨⟨hp, hc⟩, hmode⟩ := stage3_request_frame h
        exact ⟨⟨pmFrame_trans hf1 hp, hc⟩, Or.inr hmode⟩
      · injection h with h
        subst h
        exact ⟨⟨hf1, rfl⟩, Or.inl rfl⟩
  · injection h with h
    subst h
    exact ⟨eFrame_refl e, Or.inl rfl⟩

/-- `search` preserves the pool frame and the target count; additionally, a
WEB-mode session stays in WEB mode. -/
theorem search_frame {api : ApiOutcome} {w1 w2 : WebOutcome} {mr : Nat} {e : Engine}
    {r : Option FofaResponse} {e3 : Engine}
    (h : search api w1 w2 mr e = some (r, e3)) :
    eFrame e e3 ∧ (e.mode = AccessMode.web → e3.mode = AccessMode.web) := by
  unfold search at h
  split at h
  next => cases h
  next r1 e1 heq1 =>
    injection h with h
    injection h with h1 h2
    subst h1 h2
    obtain ⟨hf, hm⟩ := stage1_frame heq1
    exact ⟨hf, fun hw => hm.trans hw⟩
  next e1 heq1 =>
    obtain ⟨hf1, hm1⟩ := stage1_frame heq1
    split at h
    next => cases h
    next r2 e2 heq2 =>
      injection h with h
      injection h with h1 h2
      subst h1 h2
      obtain ⟨hf2, hm2, _⟩ := stage2_frame heq2
      refine ⟨eFrame_trans hf1 hf2, fun hw => hm2 (Or.inr (hm1.trans hw))⟩
    next e2 heq2 =>
      obtain ⟨hf2, hm2, _⟩ := stage2_frame heq2
      obtain hfin : eFrame e e2 := eFrame_trans hf1 hf2
      have hw2 : e.mode = AccessMode.web → e2.mode = AccessMode.web :=
        fun hw => hm2 (Or.inr (hm1.trans hw))
      split at h
      next => cases h
      next r3 e3x heq3 =>
        injection h with h
        injection h with h1 h2
        subst h1 h2
        obtain ⟨hf3, hm3⟩ := stage3_frame heq3
        refine ⟨eFrame_trans hfin hf3, fun hw => ?_⟩
        cases hm3 with
        | inl hsame => exact hsame.trans (hw2 hw)
        | inr hweb => exact hweb
      next e3x heq3 =>
        injection h with h
        injection h with h1 h2
        subst h1 h2
        obtain ⟨hf3, hm3⟩ := stage3_frame heq3
        refine ⟨eFrame_trans hfin hf3, fun hw => ?_⟩
        cases hm3 with
        | inl hsame => exact hsame.trans (hw2 hw)
        | inr hweb => exact hweb

/-! ## Path lemmas for `search` -/

/-- When stage 1 returns, `search` returns exactly that. -/
theorem search_stage1_returned {api : ApiOutcome} {w1 w2 : WebOutcome} {mr : Nat}
    {e : Engine} {r : Option FofaResponse} {e1 : Engine}
    (h : stage1 api e = some (.returned r e1)) :
    search api w1 w2 mr e = some (r, e1) := by
  unfold search
  rw [h]

/-- When stage 1 falls through and stage 2 returns, `search` returns exactly
what stage 2 returned. -/
theorem search_stage2_returned {api : ApiOutcome} {w1 w2 : WebOutcome} {mr : Nat}
    {e e1 : Engine} {r : Option FofaResponse} {e2 : Engine}
    (h1 : stage1 api e = some (.fell e1)) (h2 : stage2 w1 e1 = some (.returned r e2)) :
    search api w1 w2 mr e = some (r, e2) := by
  unfold search
  rw [h1]
  simp only []
  rw [h2]

/-- When all three stages fall through, `search` returns no data. -/
theorem search_fell {api : ApiOutcome} {w1 w2 : WebOutcome} {mr : Nat}
    {e e1 e2 e3 : Engine}
    (h1 : stage1 api e = some (.fell e1)) (h2 : stage2 w1 e1 = some (.fell e2))
    (h3 : stage3 w2 mr e2 = some (.fell e3)) :
    search api w1 w2 mr e = some (none, e3) := by
  unfold search
  rw [h1]
  simp only []
  rw [h2]
  simp only []
  rw [h3]

/-- The stage-1 request on a non-ban response carrying assets: count the
success, `mark_success(config.proxy)`, and return the response itself. -/
theorem stage1_request_success {e : Engine} {r : FofaResponse} {rd : RespData}
    {cp2 : Option String} {pm2 : ProxyManager}
    (hg : get_proxy e.pm = some (cp2, pm2))
    (hban : is_ban_response r = false) (hdata : r.data = some rd)
    (hassets : rd.assets ≠ []) :
    stage1_request (.resp (some r)) e = some (.returned (some r)
      { e with pm := mark_success_opt pm2 e.proxy, api_client := some cp2,
               success := e.success + 1 }) := by
  rw [stage1_request, hg]
  simp only []
  rw [if_neg (by rw [hban]; exact Bool.false_ne_true), hdata]
  simp only []
  rw [if_pos hassets]

/-- Stage 1 in API or AUTO mode on a non-ban response carrying assets: the
pool is read twice (the explicit sync and the `api_client` property), the
proxy is re-assigned, the success is counted and the response returned. -/
theorem stage1_success {e : Engine} {r : FofaResponse} {rd : RespData}
    (hwf : WFpm e.pm) (hmode : e.mode = AccessMode.api ∨ e.mode = AccessMode.auto)
    (hban : is_ban_response r = false) (hdata : r.data = some rd)
    (hassets : rd.assets ≠ []) :
    ∃ cp pm1 cp2 pm2,
      get_proxy e.pm = some (cp, pm1) ∧ get_proxy pm1 = some (cp2, pm2) ∧
      stage1 (.resp (some r)) e = some (.returned (some r)
        { e with total := e.total + 1, pm := mark_success_opt pm2 cp, proxy := cp,
                 api_client := some cp2, success := e.success + 1 }) := by
  obtain ⟨cp, pm1, hg1, hfr1, _, _⟩ := get_proxy_total e.pm hwf
  obtain ⟨cp2, pm2, hg2, _, _, _⟩ := get_proxy_total pm1 (hfr1.2.2.2.2 hwf)
  refine ⟨cp, pm1, cp2, pm2, hg1, hg2, ?_⟩
  rw [stage1, if_pos hmode]
  simp only []
  rw [hg1]
  simp only []
  by_cases hsync : cp ≠ e.proxy
  · rw [if_pos hsync]
    exact stage1_request_success hg2 hban hdata hassets
  · rw [if_neg hsync]
    push_neg at hsync
    have := stage1_request_success
      (e := { e with total := e.total + 1, pm := pm1 }) hg2 hban hdata hassets
    rw [this]
    rw [hsync]

/-- The stage-1 request falls through on a ban response or on a response with
no assets. -/
theorem stage1_request_fell {e : Engine} {r : FofaResponse}
    (hwf : WFpm e.pm)
    (hcond : is_ban_response r = true ∨ response_assets r = []) :
    ∃ e1, stage1_request (.resp (some r)) e = some (.fell e1) := by
  obtain ⟨cp2, pm2, hg, _, _, _⟩ := get_proxy_total e.pm hwf
  rw [stage1_request, hg]
  simp only []
  by_cases hban : is_ban_response r = true
  · rw [if_pos hban]
    exact ⟨_, rfl⟩
  · cases hcond with
    | inl hc => exact absurd hc hban
    | inr hempt =>
      rw [if_neg hban]
      unfold response_assets at hempt
      cases hd : r.data with
      | none =>
        simp only []
        exact ⟨_, rfl⟩
      | some rd =>
        rw [hd] at hempt
        simp only [] at hempt ⊢
        rw [if_neg (by simp [hempt])]
        exact ⟨_, rfl⟩

/-- Stage 1 always falls through (in every mode) when the API yields a ban
response or a response with no assets. -/
theorem stage1_fell_of_resp {e : Engine} {r : FofaResponse}
    (hwf : WFpm e.pm)
    (hcond : is_ban_response r = true ∨ response_assets r = []) :
    ∃ e1, stage1 (.resp (some r)) e = some (.fell e1) := by
  by_cases hmode : e.mode = AccessMode.api ∨ e.mode = AccessMode.auto
  · obtain ⟨cp, pm1, hg1, hfr1, _, _⟩ := get_proxy_total e.pm hwf
    have hwf1 : WFpm pm1 := hfr1.2.2.2.2 hwf
    rw [stage1, if_pos hmode]
    simp only []
    rw [hg1]
    simp only []
    by_cases hsync : cp ≠ e.proxy
    · rw [if_pos hsync]
      exact stage1_request_fell hwf1 hcond
    · rw [if_neg hsync]
      exact stage1_request_fell hwf1 hcond
  · rw [stage1, if_neg hmode]
    exact ⟨e, rfl⟩

/-- The stage-2 request on a truthy, non-ban html that parses to a non-empty
result list: count the success, mark the proxy, return the normalized
response. -/
theorem stage2_request_success {e : Engine} {h : String}
    {results : List SearchRecord} {t : Option Nat}
    (hwf : WFpm e.pm) (hh : h ≠ "") (hban : is_ban_html h = false)
    (hres : results ≠ []) :
    ∃ cp2 pm2, get_proxy e.pm = some (cp2, pm2) ∧
      stage2_request (.ret (some h) (some (results, t))) e =
        some (.returned (some (web_response results t))
          { e with total := e.total + 1, pm := mark_success_opt pm2 e.proxy,
                   web_client := some cp2, success := e.success + 1 }) := by
  obtain ⟨cp2, pm2, hg, _, _, _⟩ := get_proxy_total e.pm hwf
  refine ⟨cp2, pm2, hg, ?_⟩
  rw [stage2_request]
  try simp only []
  rw [hg]
  simp only []
  rw [if_neg (by simp [optFalsy, hh]), if_neg (by simp [Option.getD, hban])]
  try simp only []
  rw [if_pos hres]

/-- The stage-2 request on a truthy, non-ban html that parses to an empty
result list always falls through. -/
theorem stage2_request_no_results {e : Engine} {h : String} {t : Option Nat}
    (hwf : WFpm e.pm) (hh : h ≠ "") (hban : is_ban_html h = false) :
    ∃ e2, stage2_request (.ret (some h) (some ([], t))) e = some (.fell e2) := by
  obtain ⟨cp2, pm2, hg, _, _, _⟩ := get_proxy_total e.pm hwf
  rw [stage2_request]
  try simp only []
  rw [hg]
  simp only []
  rw [if_neg (by simp [optFalsy, hh]), if_neg (by simp [Option.getD, hban])]
  try simp only []
  rw [if_neg (by simp)]
  exact ⟨_, rfl⟩

/-- Stage 2 in AUTO or WEB mode over a non-empty, ""-free, well-formed pool,
with a truthy non-ban html parsing to a non-empty result list: the engine
enters WEB mode, assigns a pool proxy, counts the success and returns the
normalized response. -/
theorem stage2_web_success {e : Engine} {h : String}
    {results : List SearchRecord} {t : Option Nat}
    (hmode : e.mode = AccessMode.auto ∨ e.mode = AccessMode.web)
    (hwf : WFpm e.pm) (hne : e.pm.proxies ≠ []) (hns : ∀ q ∈ e.pm.proxies, q ≠ "")
    (hh : h ≠ "") (hban : is_ban_html h = false) (hres : results ≠ []) :
    ∃ e2, stage2 (.ret (some h) (some (results, t))) e =
      some (.returned (some (web_response results t)) e2) ∧
      e2.mode = AccessMode.web ∧ e2.success = e.success + 1 := by
  obtain ⟨p, pm1, hpoll, hp, hpn, hfr⟩ := poll_proxy_found hwf hne hns 7
  rw [stage2, if_pos hmode]
  simp only []
  rw [hpoll]
  simp only []
  rw [if_neg (by simp [optFalsy, hpn])]
  have hwf1 : WFpm pm1 := hfr.2.2.2.2 hwf
  obtain ⟨cp2, pm2, hg2, hreq⟩ := stage2_request_success
    (e := { e with mode := AccessMode.web, pm := pm1, proxy := some p, web_client := none })
    hwf1 hh hban hres
  rw [hreq]
  exact ⟨_, rfl, rfl, rfl⟩

/-- Stage 2 with a truthy, non-ban html parsing to an empty result list: the
page either fails immediately (`return None` for lack of proxy and direct
access) or falls through — it never returns data. -/
theorem stage2_no_results {e : Engine} {h : String} {t : Option Nat}
    (hwf : WFpm e.pm) (hh : h ≠ "") (hban : is_ban_html h = false) :
    (∃ e2, stage2 (.ret (some h) (some ([], t))) e = some (.returned none e2)) ∨
    (∃ e2, stage2 (.ret (some h) (some ([], t))) e = some (.fell e2)) := by
  by_cases hmode : e.mode = AccessMode.auto ∨ e.mode = AccessMode.web
  · obtain ⟨found, pm1, hpoll⟩ := poll_proxy_total 8 e.pm hwf
    have hfr := (poll_proxy_frame 8 hpoll).1
    have hmem := (poll_proxy_frame 8 hpoll).2
    have hwf1 : WFpm pm1 := hfr.2.2.2.2 hwf
    cases found with
    | some p =>
      right
      rw [stage2, if_pos hmode]
      simp only []
      rw [hpoll]
      simp only []
      rw [if_neg (by simp [optFalsy, (hmem p rfl).2])]
      exact stage2_request_no_results hwf1 hh hban
    | none =>
      rw [stage2, if_pos hmode]
      simp only []
      rw [hpoll]
      simp only []
      by_cases hfail : optFalsy e.proxy = true ∧ e.pm.allow_direct = false
      · left
        rw [if_pos ⟨hfail.1, by rw [hfr.2.1]; exact hfail.2⟩]
        exact ⟨_, rfl⟩
      · right
        rw [if_neg (fun hc => hfail ⟨hc.1, by rw [← hfr.2.1]; exact hc.2⟩)]
        exact stage2_request_no_results hwf1 hh hban
  · right
    rw [stage2, if_neg hmode]
    exact ⟨e, rfl⟩

/-- The stage-3 request on a truthy, non-ban html parsing to an empty result
list always falls through. -/
theorem stage3_request_no_results {e : Engine} {h : String} {t : Option Nat}
    (hwf : WFpm e.pm) (hh : h ≠ "") (hban : is_ban_html h = false) :
    ∃ e2, stage3_request (.ret (some h) (some ([], t))) e = some (.fell e2) := by
  obtain ⟨cp2, pm2, hg, _, _, _⟩ := get_proxy_total e.pm hwf
  rw [stage3_request]
  try simp only []
  rw [hg]
  simp only []
  rw [if_pos ⟨hh, hban⟩]
  try simp only []
  rw [if_neg (by simp)]
  exact ⟨_, rfl⟩

/-- Stage 3 with a truthy, non-ban html parsing to an empty result list never
returns data. -/
theorem stage3_no_results {e : Engine} {h : String} {t : Option Nat} (mr : Nat)
    (hwf : WFpm e.pm) (hh : h ≠ "") (hban : is_ban_html h = false) :
    ∃ e2, stage3 (.ret (some h) (some ([], t))) mr e = some (.fell e2) := by
  by_cases hmr : 1 < mr
  · obtain ⟨cp, pm1, hg1, hfr1, _, _⟩ := get_proxy_total e.pm hwf
    have hwf1 : WFpm pm1 := hfr1.2.2.2.2 hwf
    rw [stage3, if_pos hmr]
    simp only []
    rw [hg1]
    simp only []
    by_cases hc : optFalsy cp = false ∧ cp ≠ e.proxy
    · rw [if_pos hc]
      exact stage3_request_no_results hwf1 hh hban
    · rw [if_neg hc]
      exact ⟨_, rfl⟩
  · rw [stage3, if_neg hmr]
    exact ⟨e, rfl⟩

/-- A page whose API response is a non-ban empty one and whose WEB rounds
parse to empty result lists yields no data, on every well-formed engine, and
preserves the engine frame. -/
theorem search_no_data {e : Engine} {r : FofaResponse} {h1s h2s : String}
    {t1 t2 : Option Nat}
    (hwf : WFpm e.pm)
    (hempty : response_assets r = [])
    (hh1 : h1s ≠ "") (hb1 : is_ban_html h1s = false)
    (hh2 : h2s ≠ "") (hb2 : is_ban_html h2s = false) :
    ∃ e3, search (.resp (some r)) (.ret (some h1s) (some ([], t1)))
        (.ret (some h2s) (some ([], t2))) 3 e = some (none, e3) ∧ eFrame e e3 := by
  obtain ⟨e1, hs1⟩ := stage1_fell_of_resp hwf (Or.inr hempty)
  have hfr1 : eFrame e e1 ∧ e1.mode = e.mode := stage1_frame hs1
  have hwf1 : WFpm e1.pm := hfr1.1.1.2.2.2.2 hwf
  cases stage2_no_results (e := e1) (t := t1) hwf1 hh1 hb1 with
  | inl hret =>
    obtain ⟨e2, hs2⟩ := hret
    have hfr2 : eFrame e1 e2 ∧ _ ∧ _ := stage2_frame hs2
    exact ⟨e2, search_stage2_returned hs1 hs2, eFrame_trans hfr1.1 hfr2.1⟩
  | inr hfell =>
    obtain ⟨e2, hs2⟩ := hfell
    have hfr2 : eFrame e1 e2 ∧ _ ∧ _ := stage2_frame hs2
    have hwf2 : WFpm e2.pm := hfr2.1.1.2.2.2.2 hwf1
    obtain ⟨e3, hs3⟩ := stage3_no_results (t := t2) 3 hwf2 hh2 hb2
    have hfr3 : eFrame e2 e3 ∧ _ := stage3_frame hs3
    exact ⟨e3, search_fell hs1 hs2 hs3,
      eFrame_trans (eFrame_trans hfr1.1 hfr2.1) hfr3.1⟩

/-! ## Lemmas on the `search_all` loop -/

/-- One failed page with direct connection allowed and failures still below
the threshold: the loop bumps the failure counter and moves to the next
page. -/
theorem search_all_loop_fail_step (env : Nat → PageOutcome) (mp mc n page cf : Nat)
    (acc : List SearchRecord) (e e1 : Engine)
    (hguard : acc.length < e.end_count ∧ page ≤ mp)
    (hsearch : search (env page).api (env page).w1 (env page).w2 3 e = some (none, e1))
    (hdirect : e1.pm.allow_direct = true) (hwf1 : WFpm e1.pm)
    (hcont : cf + 1 < mc) :
    ∃ pm2, pmFrame e1.pm pm2 ∧
      search_all_loop env mp mc (n+1) page cf acc e =
        search_all_loop env mp mc n (page + 1) (cf + 1) acc { e1 with pm := pm2 } := by
  obtain ⟨gp, pm2, hg, hfr, _, _⟩ := get_proxy_total e1.pm hwf1
  refine ⟨pm2, hfr, ?_⟩
  rw [search_all_loop, if_pos hguard, hsearch]
  simp only []
  rw [hg]
  simp only []
  rw [if_neg ?hbreak, if_neg (by omega)]
  case hbreak =>
    rintro ⟨-, hc⟩
    rw [hfr.2.1, hdirect] at hc
    simp at hc

/-- One failed page that reaches the consecutive-failure threshold: the loop
stops and returns the accumulator. -/
theorem search_all_loop_fail_stop (env : Nat → PageOutcome) (mp mc n page cf : Nat)
    (acc : List SearchRecord) (e e1 : Engine)
    (hguard : acc.length < e.end_count ∧ page ≤ mp)
    (hsearch : search (env page).api (env page).w1 (env page).w2 3 e = some (none, e1))
    (hdirect : e1.pm.allow_direct = true) (hwf1 : WFpm e1.pm)
    (hstop : mc ≤ cf + 1) :
    ∃ e2, search_all_loop env mp mc (n+1) page cf acc e = some (acc, e2) := by
  obtain ⟨gp, pm2, hg, hfr, _, _⟩ := get_proxy_total e1.pm hwf1
  refine ⟨{ e1 with pm := pm2 }, ?_⟩
  rw [search_all_loop, if_pos hguard, hsearch]
  simp only []
  rw [hg]
  simp only []
  rw [if_neg ?hbreak, if_pos hstop]
  case hbreak =>
    rintro ⟨-, hc⟩
    rw [hfr.2.1, hdirect] at hc
    simp at hc

/-- The accumulated result list of the pagination loop never exceeds the
session's target count. -/
theorem search_all_loop_bound (env : Nat → PageOutcome) (mp mc : Nat) :
    ∀ fuel page cf acc (e : Engine) res,
      search_all_loop env mp mc fuel page cf acc e = some res →
      acc.length ≤ e.end_count → res.1.length ≤ e.end_count := by
  intro fuel
  induction fuel with
  | zero =>
    intro page cf acc e res h hacc
    injection h with h
    subst h
    exact hacc
  | succ n ih =>
    intro page cf acc e res h hacc
    rw [search_all_loop] at h
    split at h
    · split at h
      next => cases h
      next e1 heq =>
        have hend : e1.end_count = e.end_count := (search_frame heq).1.2
        simp only [] at h
        split at h
        next => cases h
        next gp pm2 heq2 =>
          split at h
          · injection h with h
            subst h
            exact hacc
          · split at h
            · injection h with h
              subst h
              exact hacc
            · have := ih (page + 1) _ acc { e1 with pm := pm2 } res h
                (by simp only []; omega)
              simp only [] at this
              omega
      next r e1 heq =>
        have hend : e1.end_count = e.end_count := (search_frame heq).1.2
        simp only [] at h
        split at h
        · injection h with h
          subst h
          simp only [List.length_take]
          omega
        next hlt =>
          split at h
          · injection h with h
            subst h
            simp only []
            omega
          · have := ih (page + 1) 0 (acc ++ response_assets r) e1 res h (by omega)
            omega
    · injection h with h
      subst h
      exact hacc

/-- After stage 1 falls through in AUTO or WEB mode, whatever `search`
returns, the session mode is WEB at the end of the call. -/
theorem search_mode_web_after_fell {api : ApiOutcome} {w1 w2 : WebOutcome} {mr : Nat}
    {e e1 : Engine} {res : Option FofaResponse} {e3 : Engine}
    (hm : e1.mode = AccessMode.auto ∨ e1.mode = AccessMode.web)
    (h1 : stage1 api e = some (.fell e1))
    (h : search api w1 w2 mr e = some (res, e3)) : e3.mode = AccessMode.web := by
  unfold search at h
  rw [h1] at h
  simp only [] at h
  split at h
  next => cases h
  next r2 e2 heq2 =>
    injection h with h
    injection h with h1x h2x
    subst h2x
    exact (stage2_frame heq2).2.1 hm
  next e2 heq2 =>
    have hm2 : e2.mode = AccessMode.web := (stage2_frame heq2).2.1 hm
    split at h
    next => cases h
    next r3 e3x heq3 =>
      injection h with h
      injection h with h1x h2x
      subst h2x
      cases (stage3_frame heq3).2 with
      | inl hs => exact hs.trans hm2
      | inr hw => exact hw
    next e3x heq3 =>
      injection h with h
      injection h with h1x h2x
      subst h2x
      cases (stage3_frame heq3).2 with
      | inl hs => exact hs.trans hm2
      | inr hw => exact hw

/-! ## Concrete fixtures for witnesses and counterexamples -/

/-- An empty, ready pool that allows direct connection. -/
def pmEmptyPool : ProxyManager :=
  { proxies := [], failed := [], idx := 0, is_ready := true, allow_direct := true,
    refreshing := false }

/-- A one-proxy pool. -/
def pmOne : ProxyManager :=
  { proxies := ["http://a:1"], failed := [], idx := 0, is_ready := true,
    allow_direct := true, refreshing := false }

/-- A sample asset record. -/
def recA : SearchRecord :=
  { link := "http://h1", host := "h1", port := 80, title := "", ip := "", city := "",
    asn := "", organization := "", server := "", mtime := "" }

/-- A numbered asset record. -/
def mkRec (n : Nat) : SearchRecord :=
  { link := toString n, host := "", port := 0, title := "", ip := "", city := "",
    asn := "", organization := "", server := "", mtime := "" }

/-- A non-ban API response whose assets list is empty. -/
def emptyResp : FofaResponse :=
  { code := 0, message := "", data := some { assets := [], total := none } }

/-- A non-ban API response carrying one asset. -/
def apiResp1 : FofaResponse :=
  { code := 0, message := "", data := some { assets := [recA], total := some 1 } }

/-- A ban response (API code -3000). -/
def banResp : FofaResponse := { code := -3000, message := "", data := none }

/-- A web round that parses to one record. -/
def webGood : WebOutcome := .ret (some "<html>ok</html>") (some ([recA], some 1))

/-- An engine pinned to API mode over the empty pool. -/
def engApi : Engine :=
  { mode := AccessMode.api, pm := pmEmptyPool, proxy := none, api_client := none,
    web_client := none, end_count := 100, total := 0, success := 0, failed := 0,
    ban_count := 0 }

/-- A fresh AUTO-mode engine over the empty pool. -/
def engAuto : Engine := { engApi with mode := AccessMode.auto }

/-- A fresh AUTO-mode engine over the one-proxy pool. -/
def engAutoP : Engine := { engAuto with pm := pmOne }

/-- A three-proxy pool with no recorded failures. -/
def pmThree : ProxyManager :=
  { proxies := ["http://a:1", "http://b:2", "http://c:3"], failed := [], idx := 0,
    is_ready := true, allow_direct := true, refreshing := false }

/-- An API-mode engine over the three-proxy pool. -/
def engApi3 : Engine := { engApi with pm := pmThree }

/-- Stage 2 is skipped (engine untouched) whenever the mode is neither AUTO
nor WEB — the guard at line 193 of unified_client.py. -/
theorem stage2_skip {w : WebOutcome} {e : Engine}
    (hm : ¬(e.mode = AccessMode.auto ∨ e.mode = AccessMode.web)) :
    stage2 w e = some (.fell e) := by
  rw [stage2, if_neg hm]

/-- After stage 1 falls through in API mode, `search` reduces to stage 3
alone: the stage-2 anonymous oracle is never consulted (but stage 3, which
has no mode guard, still runs on the stage-3 oracle `w2`). -/
theorem search_api_mode_skips_stage2 {api : ApiOutcome} {w1 w2 : WebOutcome}
    {mr : Nat} {e e1 : Engine}
    (h1 : stage1 api e = some (.fell e1)) (hm : e1.mode = AccessMode.api) :
    search api w1 w2 mr e =
      (match stage3 w2 mr e1 with
        | none => none
        | some (.returned r e3) => some (r, e3)
        | some (.fell e3) => some (none, e3)) := by
  unfold search
  rw [h1]
  simp only []
  rw [stage2_skip (by simp [hm])]

/-- C1 counterexample: in API mode over the empty pool, a non-ban API
response with an empty assets list does NOT proceed to the WEB stage — stage
2 is skipped, this call fails with no data and the mode stays API, even
though the anonymous client (oracle `webGood`) would have returned a record;
the same input in AUTO mode does reach the WEB stage and returns that
record. -/
theorem C1_counterexample :
    search (.resp (some emptyResp)) webGood webGood 3 engApi =
      some (none, { engApi with total := 1, api_client := some none }) ∧
    (search (.resp (some emptyResp)) webGood webGood 3
        { engApi with mode := AccessMode.auto }).map (fun x => (x.1, x.2.mode)) =
      some (some (web_response [recA] (some 1)), AccessMode.web) := by
  constructor
  · decide
  · decide

/-- C1 (amended): (1) in API or AUTO mode, when the signed-API stage yields a
non-ban response with a non-empty assets list, `search` returns that response
immediately — the result does not depend on either WEB oracle — with the
success counter up by exactly one and `mark_success` applied to the proxy
assigned by the sync (`config.proxy` = the freshly polled proxy `cp`);
(2) when the response is not a ban but has no assets, stage 1 falls through
(the call never returns at stage 1); (3) in AUTO mode it then proceeds to the
WEB stage: it returns the WEB round's parsed records and ends in WEB mode;
(4) in API mode stage 2 is skipped — the result is independent of the
stage-2 anonymous oracle; (5) only the stage-3 final retry, which has no mode
guard, may still issue an anonymous request in API mode: over the three-proxy
pool it obtains a truthy proxy differing from the assigned one and returns
the anonymous round's record, ending in WEB mode with one success. -/
theorem C1_api_success_and_empty_fallthrough :
    (∀ (e : Engine) (r : FofaResponse) (rd : RespData),
      WFpm e.pm → (e.mode = AccessMode.api ∨ e.mode = AccessMode.auto) →
      is_ban_response r = false → r.data = some rd → rd.assets ≠ [] →
      ∃ cp pm1 cp2 pm2,
        get_proxy e.pm = some (cp, pm1) ∧ get_proxy pm1 = some (cp2, pm2) ∧
        ∀ w1 w2 mr, search (.resp (some r)) w1 w2 mr e = some (some r,
          { e with total := e.total + 1, pm := mark_success_opt pm2 cp, proxy := cp,
                   api_client := some cp2, success := e.success + 1 })) ∧
    (∀ (e : Engine) (r : FofaResponse),
      WFpm e.pm → (e.mode = AccessMode.api ∨ e.mode = AccessMode.auto) →
      is_ban_response r = false → response_assets r = [] →
      ∃ e1, stage1 (.resp (some r)) e = some (.fell e1)) ∧
    (∀ (e : Engine) (r : FofaResponse) (h : String) (results : List SearchRecord)
       (t : Option Nat) (w2 : WebOutcome),
      WFpm e.pm → e.mode = AccessMode.auto →
      is_ban_response r = false → response_assets r = [] →
      e.pm.proxies ≠ [] → (∀ q ∈ e.pm.proxies, q ≠ "") →
      h ≠ "" → is_ban_html h = false → results ≠ [] →
      ∃ e2, search (.resp (some r)) (.ret (some h) (some (results, t))) w2 3 e =
        some (some (web_response results t), e2) ∧ e2.mode = AccessMode.web) ∧
    (∀ (e : Engine) (r : FofaResponse) (w1 w1' w2 : WebOutcome),
      WFpm e.pm → e.mode = AccessMode.api →
      is_ban_response r = false → response_assets r = [] →
      search (.resp (some r)) w1 w2 3 e = search (.resp (some r)) w1' w2 3 e) ∧
    ((search (.resp (some emptyResp)) (.ret none none) webGood 3 engApi3).map
        (fun x => (x.1.map response_assets, x.2.mode, x.2.success)) =
      some (some [recA], AccessMode.web, 1)) := by
  refine ⟨?_, ?_, ?_, ?_, ?_⟩
  · intro e r rd hwf hmode hban hdata hassets
    obtain ⟨cp, pm1, cp2, pm2, hg1, hg2, hstage⟩ := stage1_success hwf hmode hban hdata hassets
    exact ⟨cp, pm1, cp2, pm2, hg1, hg2, fun w1 w2 mr => search_stage1_returned hstage⟩
  · intro e r hwf hmode hban hempty
    exact stage1_fell_of_resp hwf (Or.inr hempty)
  · intro e r h results t w2 hwf hauto hban hempty hne hns hh hbh hres
    obtain ⟨e1, hs1⟩ := stage1_fell_of_resp hwf (Or.inr hempty)
    have hfr1 : eFrame e e1 ∧ e1.mode = e.mode := stage1_frame hs1
    have hwf1 : WFpm e1.pm := hfr1.1.1.2.2.2.2 hwf
    have hne1 : e1.pm.proxies ≠ [] := by
      rw [hfr1.1.1.1]
      exact hne
    have hns1 : ∀ q ∈ e1.pm.proxies, q ≠ "" := by
      rw [hfr1.1.1.1]
      exact hns
    obtain ⟨e2, hs2, hm2, _⟩ := stage2_web_success
      (Or.inl (hfr1.2.trans hauto)) hwf1 hne1 hns1 hh hbh hres
    exact ⟨e2, search_stage2_returned hs1 hs2, hm2⟩
  · intro e r w1 w1' w2 hwf hapi hban hempty
    obtain ⟨e1, hs1⟩ := stage1_fell_of_resp hwf (Or.inr hempty)
    have hm1 : e1.mode = AccessMode.api := (stage1_frame hs1).2.trans hapi
    rw [search_api_mode_skips_stage2 hs1 hm1, search_api_mode_skips_stage2 hs1 hm1]
  · decide

/-- C1 witness: all four hypothesis-bearing branches evaluated — an AUTO
engine whose API round carries one asset returns it from stage 1; stage 1
falls through on the empty-assets response in API mode; an AUTO engine over
a one-proxy pool whose API round is empty returns the WEB round's record and
ends in WEB mode; and in API mode over the empty pool the result is the same
whatever the stage-2 oracle is. -/
theorem C1_api_success_and_empty_fallthrough_witness :
    (∃ cp pm1 cp2 pm2,
      get_proxy engAuto.pm = some (cp, pm1) ∧ get_proxy pm1 = some (cp2, pm2) ∧
      ∀ w1 w2 mr, search (.resp (some apiResp1)) w1 w2 mr engAuto = some (some apiResp1,
        { engAuto with total := engAuto.total + 1, pm := mark_success_opt pm2 cp,
                       proxy := cp, api_client := some cp2,
                       success := engAuto.success + 1 })) ∧
    (∃ e1, stage1 (.resp (some emptyResp)) engApi = some (.fell e1)) ∧
    (∃ e2, search (.resp (some emptyResp)) (.ret (some "<html>ok</html>")
        (some ([recA], some 1))) (.ret none none) 3 engAutoP =
      some (some (web_response [recA] (some 1)), e2) ∧ e2.mode = AccessMode.web) ∧
    (search (.resp (some emptyResp)) webGood webGood 3 engApi =
      search (.resp (some emptyResp)) (.ret none none) webGood 3 engApi) :=
  ⟨C1_api_success_and_empty_fallthrough.1 engAuto apiResp1
      { assets := [recA], total := some 1 } (by decide) (Or.inr rfl) (by decide) rfl
      (by decide),
   C1_api_success_and_empty_fallthrough.2.1 engApi emptyResp (by decide) (Or.inl rfl)
      (by decide) rfl,
   C1_api_success_and_empty_fallthrough.2.2.1 engAutoP emptyResp "<html>ok</html>"
      [recA] (some 1) (.ret none none) (by decide) rfl (by decide) rfl (by decide)
      (by decide) (by decide) (by decide) (by decide),
   C1_api_success_and_empty_fallthrough.2.2.2.1 engApi emptyResp webGood
      (.ret none none) webGood (by decide) rfl (by decide) rfl⟩

/-- C2: once a `search` call enters the WEB stage (the mode was AUTO or WEB
and stage 1 fell through), the session mode is WEB when the call ends; a
session already in WEB mode can never leave it (no code path ever assigns
AUTO); and the spec scenario holds: from AUTO mode, a ban signal from the
signed client followed by an anonymous round parsing 5 records makes
`search` return exactly those records with the mode WEB afterwards. -/
theorem C2_web_mode_sticky :
    (∀ (api : ApiOutcome) (w1 w2 : WebOutcome) (mr : Nat) (e e1 : Engine)
       (res : Option FofaResponse) (e3 : Engine),
      (e.mode = AccessMode.auto ∨ e.mode = AccessMode.web) →
      stage1 api e = some (.fell e1) →
      search api w1 w2 mr e = some (res, e3) → e3.mode = AccessMode.web) ∧
    (∀ (api : ApiOutcome) (w1 w2 : WebOutcome) (mr : Nat) (e : Engine)
       (res : Option FofaResponse) (e3 : Engine),
      e.mode = AccessMode.web →
      search api w1 w2 mr e = some (res, e3) → e3.mode = AccessMode.web) ∧
    (∀ (e : Engine) (r : FofaResponse) (h : String) (results : List SearchRecord)
       (t : Option Nat) (w2 : WebOutcome),
      WFpm e.pm → e.mode = AccessMode.auto → is_ban_response r = true →
      e.pm.proxies ≠ [] → (∀ q ∈ e.pm.proxies, q ≠ "") →
      h ≠ "" → is_ban_html h = false → results.length = 5 →
      ∃ e2, search (.resp (some r)) (.ret (some h) (some (results, t))) w2 3 e =
        some (some (web_response results t), e2) ∧
        response_assets (web_response results t) = results ∧
        e2.mode = AccessMode.web) := by
  refine ⟨?_, ?_, ?_⟩
  · intro api w1 w2 mr e e1 res e3 hmode h1 h
    have hm1 : e1.mode = e.mode := (stage1_frame h1).2
    exact search_mode_web_after_fell (by rw [hm1]; exact hmode) h1 h
  · intro api w1 w2 mr e res e3 hweb h
    exact (search_frame h).2 hweb
  · intro e r h results t w2 hwf hauto hban hne hns hh hbh hlen
    have hres : results ≠ [] := by
      intro hc
      rw [hc] at hlen
      simp at hlen
    obtain ⟨e1, hs1⟩ := stage1_fell_of_resp hwf (Or.inl hban)
    have hfr1 : eFrame e e1 ∧ e1.mode = e.mode := stage1_frame hs1
    have hwf1 : WFpm e1.pm := hfr1.1.1.2.2.2.2 hwf
    have hne1 : e1.pm.proxies ≠ [] := by
      rw [hfr1.1.1.1]
      exact hne
    have hns1 : ∀ q ∈ e1.pm.proxies, q ≠ "" := by
      rw [hfr1.1.1.1]
      exact hns
    obtain ⟨e2, hs2, hm2, _⟩ := stage2_web_success
      (Or.inl (hfr1.2.trans hauto)) hwf1 hne1 hns1 hh hbh hres
    exact ⟨e2, search_stage2_returned hs1 hs2, rfl, hm2⟩

/-- Five sample records. -/
def recs5 : List SearchRecord := [mkRec 1, mkRec 2, mkRec 3, mkRec 4, mkRec 5]

/-- C2 witness: the scenario's conclusion evaluated from a concrete AUTO
engine over the one-proxy pool. -/
theorem C2_web_mode_sticky_witness :
    ∃ e2, search (.resp (some banResp)) (.ret (some "<html>ok</html>")
        (some (recs5, some 1000))) (.ret none none) 3 engAutoP =
      some (some (web_response recs5 (some 1000)), e2) ∧
      response_assets (web_response recs5 (some 1000)) = recs5 ∧
      e2.mode = AccessMode.web :=
  C2_web_mode_sticky.2.2 engAutoP banResp "<html>ok</html>" recs5 (some 1000)
    (.ret none none) (by decide) rfl (by decide) (by decide) (by decide) (by decide)
    (by decide) (by decide)

/-- Oracle shapes under which both clients yield empty assets on a page: a
non-ban API response with no assets, and WEB rounds whose truthy, non-ban
html parses to empty result lists. -/
def emptyPage (o : PageOutcome) : Prop :=
  (∃ r, o.api = .resp (some r) ∧ response_assets r = []) ∧
  (∃ h t, o.w1 = .ret (some h) (some ([], t)) ∧ h ≠ "" ∧ is_ban_html h = false) ∧
  (∃ h t, o.w2 = .ret (some h) (some ([], t)) ∧ h ≠ "" ∧ is_ban_html h = false)

/-- One no-data page under the `emptyPage` oracle, in the env form used by
the pagination loop. -/
theorem search_env_no_data {env : Nat → PageOutcome} {p : Nat} {e : Engine}
    (hep : emptyPage (env p)) (hwf : WFpm e.pm) :
    ∃ e3, search (env p).api (env p).w1 (env p).w2 3 e = some (none, e3) ∧
      eFrame e e3 := by
  obtain ⟨⟨r, ha, he⟩, ⟨h1, t1, hw1, hh1, hb1⟩, ⟨h2, t2, hw2, hh2, hb2⟩⟩ := hep
  rw [ha, hw1, hw2]
  exact search_no_data hwf he hh1 hb1 hh2 hb2

/-- C5: three consecutive pages on which both clients yield empty assets make
`search_all` (page limit 10, threshold 3, direct connection allowed) stop
after the third failed page with an empty result sequence — the oracles of
pages ≥ 4 are arbitrary, so no later page is consulted; conversely, a page
whose `search` returns data makes the loop recurse with the
consecutive-failure counter reset to 0. -/
theorem C5_three_failures_stop :
    (∀ (env : Nat → PageOutcome) (e : Engine),
      WFpm e.pm → e.pm.allow_direct = true →
      emptyPage (env 1) → emptyPage (env 2) → emptyPage (env 3) →
      ∃ e', search_all env 10 3 e = some ([], e')) ∧
    (∀ (env : Nat → PageOutcome) (mp mc n page cf : Nat) (acc : List SearchRecord)
       (e : Engine) (r : FofaResponse) (e1 : Engine),
      acc.length < e.end_count → page ≤ mp →
      search (env page).api (env page).w1 (env page).w2 3 e = some (some r, e1) →
      (acc ++ response_assets r).length < e1.end_count →
      total_stop r (acc ++ response_assets r).length = false →
      search_all_loop env mp mc (n+1) page cf acc e =
        search_all_loop env mp mc n (page + 1) 0 (acc ++ response_assets r) e1) := by
  constructor
  · intro env e hwf hdirect h1 h2 h3
    by_cases h0 : 0 < e.end_count
    · obtain ⟨e1, hs1, hf1⟩ := search_env_no_data h1 hwf
      have hwf1 : WFpm e1.pm := hf1.1.2.2.2.2 hwf
      have hd1 : e1.pm.allow_direct = true := by
        rw [hf1.1.2.1]
        exact hdirect
      obtain ⟨pm2, hfp2, hstep1⟩ := search_all_loop_fail_step env 10 3 9 1 0 [] e e1
        ⟨by simpa using h0, by omega⟩ hs1 hd1 hwf1 (by omega)
      have hwf2 : WFpm ({ e1 with pm := pm2 } : Engine).pm := hfp2.2.2.2.2 hwf1
      have hend2 : ({ e1 with pm := pm2 } : Engine).end_count = e.end_count := hf1.2
      obtain ⟨e3, hs2, hf2⟩ := search_env_no_data (e := { e1 with pm := pm2 }) h2 hwf2
      have hwf3 : WFpm e3.pm := hf2.1.2.2.2.2 hwf2
      have hd3 : e3.pm.allow_direct = true := by
        rw [hf2.1.2.1]
        show pm2.allow_direct = true
        rw [hfp2.2.1]
        exact hd1
      obtain ⟨pm4, hfp4, hstep2⟩ := search_all_loop_fail_step env 10 3 8 2 1 []
        { e1 with pm := pm2 } e3
        ⟨by simp only [List.length_nil]; exact hend2 ▸ h0, by omega⟩ hs2 hd3 hwf3 (by omega)
      have hwf4 : WFpm ({ e3 with pm := pm4 } : Engine).pm := hfp4.2.2.2.2 hwf3
      have hend4 : ({ e3 with pm := pm4 } : Engine).end_count = e.end_count := by
        show e3.end_count = e.end_count
        rw [hf2.2]
        exact hend2
      obtain ⟨e5, hs3, hf3⟩ := search_env_no_data (e := { e3 with pm := pm4 }) h3 hwf4
      have hwf5 : WFpm e5.pm := hf3.1.2.2.2.2 hwf4
      have hd5 : e5.pm.allow_direct = true := by
        rw [hf3.1.2.1]
        show pm4.allow_direct = true
        rw [hfp4.2.1]
        exact hd3
      obtain ⟨e6, hstop⟩ := search_all_loop_fail_stop env 10 3 7 3 2 []
        { e3 with pm := pm4 } e5
        ⟨by simp only [List.length_nil]; exact hend4 ▸ h0, by omega⟩ hs3 hd5 hwf5 (by omega)
      refine ⟨e6, ?_⟩
      rw [search_all]
      have heq1 : search_all_loop env 10 3 10 1 0 [] e =
          search_all_loop env 10 3 9 2 1 [] { e1 with pm := pm2 } := hstep1
      have heq2 : search_all_loop env 10 3 9 2 1 [] { e1 with pm := pm2 } =
          search_all_loop env 10 3 8 3 2 [] { e3 with pm := pm4 } := hstep2
      have heq3 : search_all_loop env 10 3 8 3 2 [] { e3 with pm := pm4 } =
          some ([], e6) := hstop
      rw [heq1, heq2, heq3]
    · refine ⟨e, ?_⟩
      rw [search_all]
      have h9 : search_all_loop env 10 3 (9+1) 1 0 [] e = some ([], e) := by
        rw [search_all_loop, if_neg (by simp only [List.length_nil]; omega)]
      exact h9
  · intro env mp mc n page cf acc e r e1 hlen hpage hsearch hlen2 htot
    rw [search_all_loop, if_pos ⟨hlen, hpage⟩, hsearch]
    simp only []
    rw [if_neg (by omega), if_neg (by rw [htot]; simp)]

/-- An `emptyPage` oracle used for every page. -/
def apiEmpty : ApiOutcome := .resp (some emptyResp)

/-- A WEB round that parses to no results. -/
def webEmpty : WebOutcome := .ret (some "x") (some ([], none))

/-- The all-empty environment. -/
def envEmpty : Nat → PageOutcome := fun _ => ⟨apiEmpty, webEmpty, webEmpty⟩

/-- The 15 records of the C6 scenario's first page. -/
def page1Assets : List SearchRecord := (List.range 15).map mkRec

/-- The 10 records of the C6 scenario's second page. -/
def page2Assets : List SearchRecord := (List.range 10).map mkRec

/-- A successful API page outcome carrying the given records. -/
def apiPage (l : List SearchRecord) : ApiOutcome :=
  .resp (some { code := 0, message := "",
                data := some { assets := l, total := some 1000 } })

/-- The C6 scenario environment: page 1 yields 15 records, page 2 yields 10. -/
def env6 : Nat → PageOutcome := fun p =>
  if p = 1 then ⟨apiPage page1Assets, .ret none none, .ret none none⟩
  else if p = 2 then ⟨apiPage page2Assets, .ret none none, .ret none none⟩
  else ⟨.resp none, .ret none none, .ret none none⟩

/-- The C6 engine: target count 20. -/
def eng20 : Engine := { engAuto with end_count := 20 }

/-- Page 1 of the C6 run, as a value (for the C5 reset-conjunct witness). -/
def s6p1 : Option FofaResponse × Engine :=
  (search (env6 1).api (env6 1).w1 (env6 1).w2 3 eng20).getD (none, eng20)

/-- The response page 1 of the C6 run returns. -/
def r6 : FofaResponse := s6p1.1.getD (web_response [] none)

/-- C5 witness: the all-empty environment over a fresh AUTO engine stops with
an empty sequence, and the loop recurses with the failure counter reset to 0
after the C6 run's successful first page (entered with counter 7). -/
theorem C5_three_failures_stop_witness :
    (∃ e', search_all envEmpty 10 3 engAuto = some ([], e')) ∧
    (search_all_loop env6 10 3 10 1 7 [] eng20 =
      search_all_loop env6 10 3 9 2 0 ([] ++ response_assets r6) s6p1.2) :=
  ⟨C5_three_failures_stop.1 envEmpty engAuto (by decide) rfl
      ⟨⟨emptyResp, rfl, rfl⟩, ⟨"x", none, rfl, by decide, by decide⟩,
        ⟨"x", none, rfl, by decide, by decide⟩⟩
      ⟨⟨emptyResp, rfl, rfl⟩, ⟨"x", none, rfl, by decide, by decide⟩,
        ⟨"x", none, rfl, by decide, by decide⟩⟩
      ⟨⟨emptyResp, rfl, rfl⟩, ⟨"x", none, rfl, by decide, by decide⟩,
        ⟨"x", none, rfl, by decide, by decide⟩⟩,
   C5_three_failures_stop.2 env6 10 3 9 1 7 [] eng20 r6 s6p1.2 (by decide) (by decide)
      (by decide) (by decide) (by decide)⟩

/-- C6: with target 20, the concrete scenario "page 1 yields 15, page 2
yields 10" returns exactly the first 20 of the concatenation; and in general
the pagination loop never returns more than `end_count` results, whatever the
page outcomes. -/
theorem C6_target_truncation :
    ((search_all env6 10 3 eng20).map Prod.fst =
        some ((page1Assets ++ page2Assets).take 20) ∧
      ((page1Assets ++ page2Assets).take 20).length = 20 ∧
      page1Assets.length = 15 ∧ page2Assets.length = 10 ∧ eng20.end_count = 20) ∧
    (∀ (env : Nat → PageOutcome) (mp mc fuel page cf : Nat) (acc : List SearchRecord)
       (e : Engine) (res : List SearchRecord × Engine),
      search_all_loop env mp mc fuel page cf acc e = some res →
      acc.length ≤ e.end_count → res.1.length ≤ e.end_count) := by
  constructor
  · exact ⟨by decide, by decide, by decide, by decide, rfl⟩
  · intro env mp mc fuel page cf acc e res h hacc
    exact search_all_loop_bound env mp mc fuel page cf acc e res h hacc

/-- The full C6 run, as a value. -/
def res6 : List SearchRecord × Engine :=
  (search_all env6 10 3 eng20).getD ([], eng20)

/-- C6 witness: the general bound evaluated on the concrete C6 run. -/
theorem C6_target_truncation_witness :
    ([] : List SearchRecord).length ≤ eng20.end_count ∧
    res6.1.length ≤ eng20.end_count :=
  ⟨by decide,
   C6_target_truncation.2 env6 10 3 10 1 0 [] eng20 res6 (by decide) (by decide)⟩

end Fofa
